import Mathlib

/- Verification of the WhereToEat recommendation engine
   (src/recommender.py and src/data_loader.py).

   Modelling conventions:
   * pandas DataFrames of restaurants / users / rating events are modelled as
     Lean lists of structures; ratings and scores are real numbers (the exact
     arithmetic of the source, without floating-point rounding).
   * numpy argsort is modelled as a stable ascending insertion sort on
     positions (numpy's introsort is stable on the small arrays at issue and
     ties are otherwise unspecified; stability matches observed behaviour).
     Python sorted(key, reverse=True) -- guaranteed stable descending -- and
     pandas sort_values(ascending=False) are modelled as the same stable
     ascending insertion sort applied to the negated key.
   * sklearn cosine_similarity(X) is dot(a,b)/(norm a * norm b), defined as 0
     when either vector has zero norm; in the embedding the zero-norm case
     falls out of real division by zero being 0, matching sklearn which
     replaces zero norms by 1 before dividing (a zero vector also has zero
     dot products, so both conventions give 0).
-/

namespace WhereToEat

/-! Stable insertion sort by a key into a linear order. -/

def insKey {α κ : Type} [LinearOrder κ] (key : α → κ) (x : α) : List α → List α
  | [] => [x]
  | y :: ys => if key x < key y then x :: y :: ys else y :: insKey key x ys

def sortKey {α κ : Type} [LinearOrder κ] (key : α → κ) (l : List α) : List α :=
  l.foldl (fun acc x => insKey key x acc) []

/- Strict-then-tiebreak order produced by a stable sort on a list whose
   original order satisfies R. -/
def lexKey {α κ : Type} [LinearOrder κ] (key : α → κ) (R : α → α → Prop) (a b : α) : Prop :=
  key a < key b ∨ (key a = key b ∧ R a b)

/-! Sorted deduplicated list of naturals: the index/columns of a pandas
    pivot table are the sorted distinct keys occurring in the data. -/

def insDedup (x : Nat) : List Nat → List Nat
  | [] => [x]
  | y :: ys => if x < y then x :: y :: ys else if x = y then y :: ys else y :: insDedup x ys

def dedupSorted (l : List Nat) : List Nat :=
  l.foldl (fun acc x => insDedup x acc) []

/-! Data model (section 3 of the spec; data_loader.py).  The engine reads
    restaurant attribute fields only for filtering and attribute
    pass-through; users are read only through their identifiers. -/

structure Restaurant where
  restaurant_id : Nat
  name : String
  cuisine : String
  location : String
  price_range : String
  avg_rating : ℝ
  num_reviews : Nat

structure RatingEvent where
  user_id : Nat
  restaurant_id : Nat
  rating : ℝ

/- The three record sets held by a DataLoader instance: restaurants.csv,
   users.csv (only the user identifiers are ever read by the engine) and
   user_history.csv. -/
structure DataLoader where
  restaurants : List Restaurant
  users : List Nat
  history : List RatingEvent

/-! Matrix Builder: DataLoader.get_user_item_matrix (data_loader.py lines
    212-230).  The pivot table is built from the history alone: its index is
    the sorted distinct user ids occurring in rating events and its columns
    the sorted distinct restaurant ids occurring in rating events; a cell
    holds the mean of the ratings for that (user, restaurant) pair
    (pivot_table default aggfunc), and fill_value=0 elsewhere. -/

noncomputable def cellRating (h : List RatingEvent) (u r : Nat) : ℝ :=
  let rs := (h.filter fun e => e.user_id == u && e.restaurant_id == r).map RatingEvent.rating
  if rs = [] then 0 else rs.sum / (rs.length : ℝ)

structure UserItemMatrix where
  rows : List Nat
  cols : List Nat
  val : Nat → Nat → ℝ

noncomputable def get_user_item_matrix (dl : DataLoader) : UserItemMatrix :=
  { rows := dedupSorted (dl.history.map RatingEvent.user_id)
    cols := dedupSorted (dl.history.map RatingEvent.restaurant_id)
    val := fun u r => cellRating dl.history u r }

/-! Similarity Engine: _calculate_user_similarity / _calculate_item_similarity
    (recommender.py lines 74-89), i.e. sklearn cosine_similarity over matrix
    rows (users) respectively columns (restaurants). -/

def listDot (f g : Nat → ℝ) (l : List Nat) : ℝ :=
  (l.map fun i => f i * g i).sum

def rowDot (M : UserItemMatrix) (u v : Nat) : ℝ :=
  listDot (M.val u) (M.val v) M.cols

def colDot (M : UserItemMatrix) (r s : Nat) : ℝ :=
  listDot (fun u => M.val u r) (fun u => M.val u s) M.rows

noncomputable def userSim (M : UserItemMatrix) (u v : Nat) : ℝ :=
  rowDot M u v / (Real.sqrt (rowDot M u u) * Real.sqrt (rowDot M v v))

noncomputable def itemSim (M : UserItemMatrix) (r s : Nat) : ℝ :=
  colDot M r s / (Real.sqrt (colDot M r r) * Real.sqrt (colDot M s s))

/-! Popularity Ranker: filter_restaurants (data_loader.py lines 140-176) and
    recommend_by_average_rating (recommender.py lines 31-67). -/

noncomputable def filter_restaurants (dl : DataLoader)
    (cuisine location price_range : Option String) (min_rating : ℝ) :
    List Restaurant :=
  let l1 := match cuisine with
    | some c => dl.restaurants.filter fun r => r.cuisine == c
    | none => dl.restaurants
  let l2 := match location with
    | some c => l1.filter fun r => r.location == c
    | none => l1
  let l3 := match price_range with
    | some c => l2.filter fun r => r.price_range == c
    | none => l2
  if 0 < min_rating then l3.filter fun r => decide (min_rating ≤ r.avg_rating) else l3

/- Sort key of sort_values(by=[avg_rating, num_reviews], ascending=[False,
   False]): stable ascending in the lexicographic negated pair. -/
noncomputable def popKey (r : Restaurant) : Lex (ℝ × ℝ) :=
  toLex (-r.avg_rating, -(r.num_reviews : ℝ))

/- recommend_by_average_rating; the source defaults are n=10, no
   cuisine/location/price filter, min_reviews=5.  Callers inside the engine
   always use the filter defaults, passed explicitly here. -/
noncomputable def recommend_by_average_rating (dl : DataLoader) (n : Nat)
    (cuisine location price_range : Option String) (min_reviews : Nat) :
    List Restaurant :=
  let restaurants := (filter_restaurants dl cuisine location price_range 0).filter
    fun r => min_reviews ≤ r.num_reviews
  (sortKey popKey restaurants).take n

/-! Recommendation rows: every recommender returns a DataFrame whose rows
    carry a restaurant id, an attached score column (predicted_rating or
    hybrid_score) when the collaborative path produced one, and the
    restaurant attributes merged on restaurant_id (how=left: a missing
    match leaves the attribute fields empty). -/

structure RecRow where
  restaurant_id : Nat
  score : Option ℝ
  details : Option Restaurant

def rowIds (l : List RecRow) : List Nat := l.map RecRow.restaurant_id

def restIds (l : List Restaurant) : List Nat := l.map Restaurant.restaurant_id

/- The popularity fallback result viewed as recommendation rows: plain
   restaurant rows, no predicted_rating column. -/
noncomputable def popRows (dl : DataLoader) (n : Nat) : List RecRow :=
  (recommend_by_average_rating dl n none none none 5).map fun r =>
    { restaurant_id := r.restaurant_id, score := none, details := some r }

/- Merge of an (id, score) list with restaurant details on restaurant_id
   (how=left), keeping left order; restaurant ids are unique in the data
   model, so the first match is the match. -/
def mergeDetails (dl : DataLoader) (l : List (Nat × ℝ)) : List RecRow :=
  l.map fun p =>
    { restaurant_id := p.1, score := some p.2
      details := dl.restaurants.find? fun r => r.restaurant_id == p.1 }

/-! Predictor, user-based: recommend_collaborative_user_based
    (recommender.py lines 91-180), decomposed along the source lines. -/

/- Position j in the matrix index corresponds to this user id. -/
def rowIdAt (M : UserItemMatrix) (j : Nat) : Nat := M.rows.getD j 0

def colIdAt (M : UserItemMatrix) (j : Nat) : Nat := M.cols.getD j 0

/- user_similarities = self.user_similarity[user_idx]: similarity of the row
   at position j to the target user's row. -/
noncomputable def ubSims (M : UserItemMatrix) (uid : Nat) (j : Nat) : ℝ :=
  userSim M (rowIdAt M j) uid

/- np.argsort(user_similarities)[::-1] over all row positions. -/
noncomputable def ubOrder (M : UserItemMatrix) (uid : Nat) : List Nat :=
  (sortKey (ubSims M uid) (List.range M.rows.length)).reverse

/- [1:k_neighbors+1]: drop the first entry of the descending order, keep k. -/
noncomputable def ubNeighborIdxs (M : UserItemMatrix) (uid : Nat) (k : Nat) : List Nat :=
  ((ubOrder M uid).drop 1).take k

noncomputable def ubNeighborIds (M : UserItemMatrix) (uid : Nat) (k : Nat) : List Nat :=
  (ubNeighborIdxs M uid k).map (rowIdAt M)

/- weighted_ratings = (similar_users_ratings * weights).sum(axis=0). -/
noncomputable def ubWeighted (M : UserItemMatrix) (uid : Nat) (k : Nat) (r : Nat) : ℝ :=
  ((ubNeighborIdxs M uid k).map fun j => ubSims M uid j * M.val (rowIdAt M j) r).sum

/- sum_of_weights = (weights * (similar_users_ratings > 0)).sum(axis=0). -/
noncomputable def ubSumW (M : UserItemMatrix) (uid : Nat) (k : Nat) (r : Nat) : ℝ :=
  ((ubNeighborIdxs M uid k).map fun j =>
    ubSims M uid j * (if 0 < M.val (rowIdAt M j) r then (1 : ℝ) else 0)).sum

/- np.divide(..., out=zeros, where=sum_of_weights != 0). -/
noncomputable def ubPred (M : UserItemMatrix) (uid : Nat) (k : Nat) (r : Nat) : ℝ :=
  if ubSumW M uid k r = 0 then 0 else ubWeighted M uid k r / ubSumW M uid k r

/- unrated_restaurants = user_ratings[user_ratings == 0].index, in column
   order.  (Each of these is a matrix column, so the source's membership
   check on self.user_item_matrix.columns is always true.) -/
noncomputable def ubUnrated (M : UserItemMatrix) (uid : Nat) : List Nat :=
  M.cols.filter fun r => decide (M.val uid r = 0)

/- The (restaurant_id, predicted_rating) pairs appended by the loop:
   unrated restaurants whose prediction is strictly positive. -/
noncomputable def ubCandidates (M : UserItemMatrix) (uid : Nat) (k : Nat) : List (Nat × ℝ) :=
  (ubUnrated M uid).filterMap fun r =>
    if 0 < ubPred M uid k r then some (r, ubPred M uid k r) else none

noncomputable def recommend_collaborative_user_based (dl : DataLoader)
    (user_id : Nat) (n : Nat) (k_neighbors : Nat) : List RecRow :=
  let M := get_user_item_matrix dl
  if user_id ∈ M.rows then
    let cands := ubCandidates M user_id k_neighbors
    if cands.isEmpty then popRows dl n
    else mergeDetails dl ((sortKey (fun p => -p.2) cands).take n)
  else popRows dl n

/-! Predictor, item-based: recommend_collaborative_item_based
    (recommender.py lines 182-267).  The k_similar_items parameter is part
    of the source signature (default 5) and is carried here verbatim; the
    body never reads it. -/

/- rated_restaurants = user_ratings[user_ratings > 0], as (id, rating)
   pairs in column order. -/
noncomputable def ibRated (M : UserItemMatrix) (uid : Nat) : List (Nat × ℝ) :=
  M.cols.filterMap fun r =>
    if 0 < M.val uid r then some (r, M.val uid r) else none

/- weighted_sum: only positive similarities contribute. -/
noncomputable def ibWSum (M : UserItemMatrix) (uid : Nat) (r : Nat) : ℝ :=
  ((ibRated M uid).map fun p =>
    if 0 < itemSim M r p.1 then itemSim M r p.1 * p.2 else 0).sum

noncomputable def ibSimSum (M : UserItemMatrix) (uid : Nat) (r : Nat) : ℝ :=
  ((ibRated M uid).map fun p =>
    if 0 < itemSim M r p.1 then itemSim M r p.1 else 0).sum

/- predictions, keyed in unrated (column) order; a restaurant enters only
   when its similarity_sum is strictly positive. -/
noncomputable def ibPredictions (M : UserItemMatrix) (uid : Nat) : List (Nat × ℝ) :=
  (ubUnrated M uid).filterMap fun r =>
    if 0 < ibSimSum M uid r then some (r, ibWSum M uid r / ibSimSum M uid r) else none

noncomputable def recommend_collaborative_item_based (dl : DataLoader)
    (user_id : Nat) (n : Nat) (k_similar_items : Nat) : List RecRow :=
  let M := get_user_item_matrix dl
  if user_id ∈ M.rows then
    if (ibRated M user_id).isEmpty then popRows dl n
    else
      let preds := ibPredictions M user_id
      if preds.isEmpty then popRows dl n
      else mergeDetails dl ((sortKey (fun p => -p.2) preds).take n)
  else popRows dl n

/-! Hybrid Blender: recommend_hybrid (recommender.py lines 269-342). -/

/- combined_scores[id] = combined_scores.get(id, 0) + s, on a Python dict:
   an existing key keeps its insertion position, a new key is appended. -/
def upsert : List (Nat × ℝ) → Nat → ℝ → List (Nat × ℝ)
  | [], i, s => [(i, s)]
  | (j, v) :: rest, i, s =>
    if j = i then (j, v + s) :: rest else (j, v) :: upsert rest i s

/- Per-row contribution of one source: predicted_rating * weight when the
   row carries that column, else avg_rating * weight. -/
def rowScoreContrib (w : ℝ) (row : RecRow) : ℝ :=
  match row.score with
  | some p => p * w
  | none => (match row.details with | some r => r.avg_rating | none => 0) * w

def addSource (acc : List (Nat × ℝ)) (src : List RecRow) (w : ℝ) : List (Nat × ℝ) :=
  src.foldl (fun m row => upsert m row.restaurant_id (rowScoreContrib w row)) acc

/- The combined_scores dict after the three accumulation loops; the three
   sources are requested with an oversized candidate count n*2, and the
   sub-recommenders run with their own source defaults (k_neighbors=5). -/
noncomputable def hybridScores (dl : DataLoader) (user_id : Nat) (n : Nat)
    (weight_user_cf weight_item_cf weight_popularity : ℝ) : List (Nat × ℝ) :=
  addSource
    (addSource
      (addSource [] (recommend_collaborative_user_based dl user_id (2 * n) 5) weight_user_cf)
      (recommend_collaborative_item_based dl user_id (2 * n) 5) weight_item_cf)
    (popRows dl (2 * n)) weight_popularity

noncomputable def recommend_hybrid (dl : DataLoader) (user_id : Nat) (n : Nat)
    (weight_user_cf weight_item_cf weight_popularity : ℝ) : List RecRow :=
  mergeDetails dl
    ((sortKey (fun p => -p.2)
      (hybridScores dl user_id n weight_user_cf weight_item_cf weight_popularity)).take n)

/-! Similarity Lookup: get_similar_restaurants (recommender.py lines
    344-383). -/

/- similarities = self.item_similarity[item_idx]: similarity of the column
   at position j to the queried restaurant's column. -/
noncomputable def srSims (M : UserItemMatrix) (rid : Nat) (j : Nat) : ℝ :=
  itemSim M (colIdAt M j) rid

noncomputable def srOrder (M : UserItemMatrix) (rid : Nat) : List Nat :=
  (sortKey (srSims M rid) (List.range M.cols.length)).reverse

/- similar_indices = np.argsort(similarities)[::-1][1:n+1]. -/
noncomputable def srSelIdxs (M : UserItemMatrix) (rid : Nat) (n : Nat) : List Nat :=
  ((srOrder M rid).drop 1).take n

noncomputable def srSelIds (M : UserItemMatrix) (rid : Nat) (n : Nat) : List Nat :=
  (srSelIdxs M rid n).map (colIdAt M)

noncomputable def get_similar_restaurants (dl : DataLoader) (restaurant_id : Nat)
    (n : Nat) : List (Restaurant × ℝ) :=
  let M := get_user_item_matrix dl
  if restaurant_id ∈ M.cols then
    let ids := srSelIds M restaurant_id n
    let sel := dl.restaurants.filter fun r => r.restaurant_id ∈ ids
    sortKey (fun p => -p.2) (sel.map fun r => (r, itemSim M r.restaurant_id restaurant_id))
  else []

/- Lookup of a restaurant's accumulated score in the combined_scores dict. -/
def scoreLookup (m : List (Nat × ℝ)) (i : Nat) : Option ℝ :=
  (m.find? fun p => p.1 == i).map Prod.snd

/-! Concrete data sets used by the counterexamples and witnesses below. -/

def RA1 : Restaurant := ⟨1, "golden", "Italian", "north", "$$", 4, 10⟩

def RA2 : Restaurant := ⟨2, "silver", "Thai", "south", "$", 3, 10⟩

def RA9 : Restaurant := ⟨9, "ghost", "Sushi", "east", "$$$", 5, 7⟩

/- Two restaurants with identical rating columns: one user rated both 5. -/
def dlA : DataLoader := ⟨[RA1, RA2], [1], [⟨1, 1, 5⟩, ⟨1, 2, 5⟩]⟩

/- Three users; users 2 and 3 have identical rating rows, hence equal
   cosine similarity to user 1. -/
def dlC : DataLoader := ⟨[RA1, RA2], [1, 2, 3],
  [⟨1, 1, 3⟩, ⟨1, 2, 4⟩, ⟨2, 1, 4⟩, ⟨2, 2, 3⟩, ⟨3, 1, 4⟩, ⟨3, 2, 3⟩]⟩

def RW1 : Restaurant := ⟨1, "w1", "Italian", "north", "$$", 4, 10⟩

def RW2 : Restaurant := ⟨2, "w2", "Thai", "south", "$", 3, 10⟩

def RW3 : Restaurant := ⟨3, "w3", "Sushi", "east", "$$$", 2, 0⟩

/- User 1 rated only restaurant 1; user 2 rated restaurants 1 and 2 (and
   logged rating 0 for restaurant 3, leaving an all-zero column). -/
def dlW : DataLoader := ⟨[RW1, RW2, RW3], [1, 2],
  [⟨1, 1, 5⟩, ⟨2, 1, 5⟩, ⟨2, 2, 4⟩, ⟨2, 3, 0⟩]⟩

def RB1 : Restaurant := ⟨1, "b1", "Italian", "north", "$$", 4, 10⟩

def RB2 : Restaurant := ⟨2, "b2", "Thai", "south", "$", 3, 1⟩

def RB3 : Restaurant := ⟨3, "b3", "Sushi", "east", "$$$", 5, 100⟩

/- User 1 rated a single restaurant, so every item-based prediction equals
   that rating; the two tied candidates have review counts ordered against
   their identifiers. -/
def dlB : DataLoader := ⟨[RB1, RB2, RB3], [1, 2],
  [⟨1, 1, 4⟩, ⟨2, 1, 1⟩, ⟨2, 2, 1⟩, ⟨2, 3, 1⟩]⟩

/- User 7 and restaurant 9 are present in the record sets but have no
   rating events; the event (user 2, restaurant 99) references identifiers
   absent from both record sets. -/
def dlD : DataLoader := ⟨[RA1, RA9], [1, 7], [⟨1, 1, 5⟩, ⟨2, 99, 4⟩]⟩

/- Disjoint rating columns: each restaurant's self-similarity strictly
   exceeds the other's similarity to it. -/
def dlS : DataLoader := ⟨[RA1, RA2], [1, 2], [⟨1, 1, 5⟩, ⟨2, 2, 3⟩]⟩

/- Empty history: every user identifier is absent from the rating matrix. -/
def dlE : DataLoader := ⟨[RA1, RA2], [1], []⟩

/-! Generic lemmas about the stable insertion sort. -/

theorem insKey_perm {α κ : Type} [LinearOrder κ] (key : α → κ) (x : α) :
    ∀ l : List α, (insKey key x l).Perm (x :: l)
  | [] => List.Perm.refl _
  | y :: ys => by
    unfold insKey
    split
    · exact List.Perm.refl _
    · exact ((insKey_perm key x ys).cons y).trans (List.Perm.swap x y ys)

theorem sortKey_perm_aux {α κ : Type} [LinearOrder κ] (key : α → κ) :
    ∀ (l acc : List α), (l.foldl (fun acc x => insKey key x acc) acc).Perm (acc ++ l)
  | [], acc => by simp
  | x :: l, acc => by
    simp only [List.foldl_cons]
    refine (sortKey_perm_aux key l (insKey key x acc)).trans ?_
    exact ((insKey_perm key x acc).append_right l).trans List.perm_middle.symm

theorem sortKey_perm {α κ : Type} [LinearOrder κ] (key : α → κ) (l : List α) :
    (sortKey key l).Perm l := by
  simpa using sortKey_perm_aux key l []

theorem lexKey_le {α κ : Type} [LinearOrder κ] {key : α → κ} {R : α → α → Prop}
    {a b : α} (h : lexKey key R a b) : key a ≤ key b := by
  rcases h with h | ⟨h, _⟩
  · exact le_of_lt h
  · exact le_of_eq h

theorem insKey_pairwise {α κ : Type} [LinearOrder κ] {key : α → κ} {R : α → α → Prop}
    {x : α} : ∀ {l : List α}, l.Pairwise (lexKey key R) → (∀ y ∈ l, R y x) →
    (insKey key x l).Pairwise (lexKey key R)
  | [], _, _ => by simp [insKey, List.pairwise_cons]
  | y :: ys, h, hR => by
    rw [List.pairwise_cons] at h
    unfold insKey
    split
    · rename_i h1
      rw [List.pairwise_cons]
      refine ⟨?_, List.pairwise_cons.mpr h⟩
      intro z hz
      rcases List.mem_cons.mp hz with rfl | hz
      · exact Or.inl h1
      · exact Or.inl (lt_of_lt_of_le h1 (lexKey_le (h.1 z hz)))
    · rename_i h1
      rw [List.pairwise_cons]
      constructor
      · intro z hz
        rcases List.mem_cons.mp ((insKey_perm key x ys).mem_iff.mp hz) with hz | hz
        · subst hz
          rcases lt_or_eq_of_le (le_of_not_lt h1) with h2 | h2
          · exact Or.inl h2
          · exact Or.inr ⟨h2, hR y (List.mem_cons_self y ys)⟩
        · exact h.1 z hz
      · exact insKey_pairwise h.2 fun z hz => hR z (List.mem_cons_of_mem y hz)

theorem sortKey_pairwise_aux {α κ : Type} [LinearOrder κ] {key : α → κ} {R : α → α → Prop} :
    ∀ (l acc : List α), l.Pairwise R → acc.Pairwise (lexKey key R) →
      (∀ a ∈ acc, ∀ b ∈ l, R a b) →
      (l.foldl (fun acc x => insKey key x acc) acc).Pairwise (lexKey key R)
  | [], acc, _, hacc, _ => hacc
  | x :: l, acc, h, hacc, hcross => by
    rw [List.pairwise_cons] at h
    simp only [List.foldl_cons]
    refine sortKey_pairwise_aux l (insKey key x acc) h.2 ?_ ?_
    · exact insKey_pairwise hacc fun y hy => hcross y hy x (List.mem_cons_self x l)
    · intro a ha b hb
      rcases List.mem_cons.mp ((insKey_perm key x acc).mem_iff.mp ha) with ha | ha
      · subst ha
        exact h.1 b hb
      · exact hcross a ha b (List.mem_cons_of_mem x hb)

theorem sortKey_pairwise {α κ : Type} [LinearOrder κ] {key : α → κ} {R : α → α → Prop}
    {l : List α} (h : l.Pairwise R) : (sortKey key l).Pairwise (lexKey key R) := by
  refine sortKey_pairwise_aux l [] h (by simp) (by simp)

theorem pairwise_trivial {α : Type} : ∀ l : List α, l.Pairwise fun _ _ => True
  | [] => List.Pairwise.nil
  | _ :: l => List.pairwise_cons.mpr ⟨fun _ _ => trivial, pairwise_trivial l⟩

theorem sortKey_sorted {α κ : Type} [LinearOrder κ] (key : α → κ) (l : List α) :
    (sortKey key l).Pairwise fun a b => key a ≤ key b :=
  (sortKey_pairwise (pairwise_trivial l)).imp lexKey_le

theorem insKey_append {α κ : Type} [LinearOrder κ] {key : α → κ} {x : α} :
    ∀ {l : List α}, (∀ y ∈ l, ¬ key x < key y) → insKey key x l = l ++ [x]
  | [], _ => rfl
  | y :: ys, h => by
    unfold insKey
    rw [if_neg (h y (List.mem_cons_self y ys))]
    rw [insKey_append fun z hz => h z (List.mem_cons_of_mem y hz)]
    simp

theorem sortKey_eq_self_aux {α κ : Type} [LinearOrder κ] {key : α → κ} :
    ∀ (l acc : List α), l.Pairwise (fun a b => key a ≤ key b) →
      (∀ a ∈ acc, ∀ b ∈ l, key a ≤ key b) →
      l.foldl (fun acc x => insKey key x acc) acc = acc ++ l
  | [], acc, _, _ => by simp
  | x :: l, acc, h, hcross => by
    rw [List.pairwise_cons] at h
    simp only [List.foldl_cons]
    rw [insKey_append fun y hy =>
      not_lt_of_le (hcross y hy x (List.mem_cons_self x l))]
    rw [sortKey_eq_self_aux l (acc ++ [x]) h.2 ?_]
    · simp
    · intro a ha b hb
      rcases List.mem_append.mp ha with ha | ha
      · exact hcross a ha b (List.mem_cons_of_mem x hb)
      · rw [List.mem_singleton] at ha
        subst ha
        exact h.1 b hb

theorem sortKey_eq_self {α κ : Type} [LinearOrder κ] {key : α → κ} {l : List α}
    (h : l.Pairwise fun a b => key a ≤ key b) : sortKey key l = l := by
  simpa using sortKey_eq_self_aux l [] h (by simp)

/-! Lemmas about dedupSorted. -/

theorem mem_insDedup {x a : Nat} : ∀ {l : List Nat}, a ∈ insDedup x l ↔ a = x ∨ a ∈ l
  | [] => by simp [insDedup]
  | y :: ys => by
    unfold insDedup
    split
    · simp
    · split
      · rename_i h1 h2
        subst h2
        simp only [List.mem_cons]
        constructor
        · exact Or.inr
        · rintro (rfl | h) <;> [exact Or.inl rfl; exact h]
      · simp only [List.mem_cons, mem_insDedup]
        tauto

theorem insDedup_pairwise {x : Nat} : ∀ {l : List Nat},
    l.Pairwise (· < ·) → (insDedup x l).Pairwise (· < ·)
  | [], _ => by simp [insDedup]
  | y :: ys, h => by
    rw [List.pairwise_cons] at h
    unfold insDedup
    split
    · rename_i h1
      rw [List.pairwise_cons]
      refine ⟨?_, List.pairwise_cons.mpr h⟩
      intro z hz
      rcases List.mem_cons.mp hz with rfl | hz
      · exact h1
      · exact lt_trans h1 (h.1 z hz)
    · split
      · exact List.pairwise_cons.mpr h
      · rename_i h1 h2
        rw [List.pairwise_cons]
        constructor
        · intro z hz
          rcases mem_insDedup.mp hz with rfl | hz
          · omega
          · exact h.1 z hz
        · exact insDedup_pairwise h.2

theorem dedupSorted_pairwise_aux :
    ∀ (l acc : List Nat), acc.Pairwise (· < ·) →
      (l.foldl (fun acc x => insDedup x acc) acc).Pairwise (· < ·)
  | [], _, hacc => hacc
  | x :: l, acc, hacc => by
    simp only [List.foldl_cons]
    exact dedupSorted_pairwise_aux l (insDedup x acc) (insDedup_pairwise hacc)

theorem dedupSorted_pairwise (l : List Nat) : (dedupSorted l).Pairwise (· < ·) :=
  dedupSorted_pairwise_aux l [] List.Pairwise.nil

theorem dedupSorted_nodup (l : List Nat) : (dedupSorted l).Nodup :=
  (dedupSorted_pairwise l).imp Nat.ne_of_lt

theorem mem_dedupSorted_aux {a : Nat} :
    ∀ (l acc : List Nat), a ∈ l.foldl (fun acc x => insDedup x acc) acc ↔ a ∈ acc ∨ a ∈ l
  | [], acc => by simp
  | x :: l, acc => by
    simp only [List.foldl_cons, mem_dedupSorted_aux l (insDedup x acc), mem_insDedup]
    simp only [List.mem_cons]
    tauto

theorem mem_dedupSorted {a : Nat} {l : List Nat} : a ∈ dedupSorted l ↔ a ∈ l := by
  simpa [dedupSorted] using mem_dedupSorted_aux l []

/-! Characterization of np.argsort(...)[::-1]: a position whose key is
    strictly maximal heads the reversed order, and the tail is sorted by
    (key descending, position descending). -/

theorem head_of_max {κ : Type} [LinearOrder κ] {key : Nat → κ} {L : List Nat} {m t : Nat}
    (hnodup : L.Nodup) (hpw : L.Pairwise fun a b => lexKey key (· < ·) b a)
    (hmem : ∀ j, j ∈ L ↔ j < m) (ht : t < m)
    (hmax : ∀ j, j < m → j ≠ t → key j < key t) :
    ∃ rest, L = t :: rest ∧ t ∉ rest ∧
      (rest.Pairwise fun a b => lexKey key (· < ·) b a) ∧
      (∀ j ∈ rest, j < m ∧ j ≠ t) ∧ (∀ j, j < m → j ≠ t → j ∈ rest) := by
  cases L with
  | nil => exact absurd ((hmem t).mpr ht) (by simp)
  | cons h0 rest =>
    have hh0 : h0 = t := by
      by_contra hne
      have htr : t ∈ rest := by
        rcases List.mem_cons.mp ((hmem t).mpr ht) with h | h
        · exact absurd h.symm hne
        · exact h
      have hlex : lexKey key (· < ·) t h0 :=
        (List.pairwise_cons.mp hpw).1 t htr
      have hm0 : h0 < m := (hmem h0).mp (List.mem_cons_self h0 rest)
      have : key h0 < key t := hmax h0 hm0 hne
      rcases hlex with h | ⟨h, _⟩
      · exact absurd h (not_lt_of_lt this)
      · exact absurd h.symm (ne_of_lt this)
    subst hh0
    refine ⟨rest, rfl, (List.nodup_cons.mp hnodup).1, (List.pairwise_cons.mp hpw).2, ?_, ?_⟩
    · intro j hj
      refine ⟨(hmem j).mp (List.mem_cons_of_mem h0 hj), ?_⟩
      rintro rfl
      exact (List.nodup_cons.mp hnodup).1 hj
    · intro j hjm hjt
      rcases List.mem_cons.mp ((hmem j).mpr hjm) with h | h
      · exact absurd h hjt
      · exact h

theorem argDesc_max {κ : Type} [LinearOrder κ] (key : Nat → κ) {m t : Nat}
    (ht : t < m) (hmax : ∀ j, j < m → j ≠ t → key j < key t) :
    ∃ rest, (sortKey key (List.range m)).reverse = t :: rest ∧ t ∉ rest ∧
      (rest.Pairwise fun a b => key b < key a ∨ (key b = key a ∧ b < a)) ∧
      (∀ j ∈ rest, j < m ∧ j ≠ t) ∧ (∀ j, j < m → j ≠ t → j ∈ rest) := by
  have hperm : (sortKey key (List.range m)).Perm (List.range m) := sortKey_perm _ _
  refine head_of_max ?_ ?_ ?_ ht hmax
  · exact List.nodup_reverse.mpr (hperm.nodup_iff.mpr (List.nodup_range m))
  · exact List.pairwise_reverse.mpr (sortKey_pairwise (List.pairwise_lt_range m))
  · intro j
    rw [List.mem_reverse, hperm.mem_iff, List.mem_range]

/- Positions of a strictly ascending list carry distinct entries. -/
theorem pairwise_lt_getD_ne {l : List Nat} (h : l.Pairwise (· < ·)) {i j : Nat}
    (hi : i < l.length) (hj : j < l.length) (hne : i ≠ j) : l.getD i 0 ≠ l.getD j 0 := by
  have hget := List.pairwise_iff_getElem.mp h
  rw [List.getD_eq_getElem l 0 hi, List.getD_eq_getElem l 0 hj]
  rcases Nat.lt_or_ge i j with hij | hij
  · exact Nat.ne_of_lt (hget i j hi hj hij)
  · exact (Nat.ne_of_lt (hget j i hj hi (Nat.lt_of_le_of_ne hij (Ne.symm hne)))).symm

theorem rows_pairwise (dl : DataLoader) :
    (get_user_item_matrix dl).rows.Pairwise (· < ·) := dedupSorted_pairwise _

theorem cols_pairwise (dl : DataLoader) :
    (get_user_item_matrix dl).cols.Pairwise (· < ·) := dedupSorted_pairwise _

/-- C1 (amended): for a queried restaurant present in the rating matrix whose
self-similarity strictly exceeds every other column's similarity to it, the
similarity lookup never returns the queried restaurant, and its entries are
ordered descending by item-item cosine similarity.  (Without the strict
excess -- e.g. when another column ties the maximal similarity -- the queried
restaurant itself can appear; see the counterexample.) -/
theorem C1_similar_lookup (dl : DataLoader) (rid n t : Nat)
    (ht : t < (get_user_item_matrix dl).cols.length)
    (hid : colIdAt (get_user_item_matrix dl) t = rid)
    (hmax : ∀ j, j < (get_user_item_matrix dl).cols.length → j ≠ t →
      srSims (get_user_item_matrix dl) rid j < srSims (get_user_item_matrix dl) rid t) :
    (∀ p ∈ get_similar_restaurants dl rid n, p.1.restaurant_id ≠ rid) ∧
    ((get_similar_restaurants dl rid n).Pairwise fun p q => q.2 ≤ p.2) := by
  have hmemc : rid ∈ (get_user_item_matrix dl).cols := by
    rw [← hid]
    unfold colIdAt
    rw [List.getD_eq_getElem _ 0 ht]
    exact List.getElem_mem ht
  have hout : get_similar_restaurants dl rid n =
      sortKey (fun p => -p.2)
        ((dl.restaurants.filter fun r =>
          r.restaurant_id ∈ srSelIds (get_user_item_matrix dl) rid n).map
            fun r => (r, itemSim (get_user_item_matrix dl) r.restaurant_id rid)) := by
    simp only [get_similar_restaurants]
    rw [if_pos hmemc]
  obtain ⟨rest, hOrd, htr, hpw, hrest, hall⟩ :=
    argDesc_max (srSims (get_user_item_matrix dl) rid) ht hmax
  have hOrd' : srOrder (get_user_item_matrix dl) rid = t :: rest := hOrd
  have hsel : srSelIdxs (get_user_item_matrix dl) rid n = rest.take n := by
    unfold srSelIdxs
    rw [hOrd']
    simp
  have hnotin : rid ∉ srSelIds (get_user_item_matrix dl) rid n := by
    unfold srSelIds
    rw [hsel]
    intro hmem
    obtain ⟨i, hi, hival⟩ := List.mem_map.mp hmem
    have hirest : i ∈ rest := List.mem_of_mem_take hi
    obtain ⟨him, hit⟩ := hrest i hirest
    have : colIdAt (get_user_item_matrix dl) i ≠ rid := by
      rw [← hid]
      exact pairwise_lt_getD_ne (cols_pairwise dl) him ht hit
    exact this hival
  constructor
  · intro p hp
    rw [hout] at hp
    have hp' := (sortKey_perm _ _).mem_iff.mp hp
    obtain ⟨r, hr, hrp⟩ := List.mem_map.mp hp'
    obtain ⟨_, hrid⟩ := List.mem_filter.mp hr
    intro hcontra
    apply hnotin
    have hp1 : p.1 = r := by rw [← hrp]
    have he : rid = r.restaurant_id := by rw [← hcontra, hp1]
    nth_rewrite 2 [he]
    exact of_decide_eq_true hrid
  · rw [hout]
    exact (sortKey_sorted _ _).imp fun h => neg_le_neg_iff.mp h

/-- C2 (amended): the user-based predictor's neighbor list is obtained by
dropping the first entry of the similarity-descending order of all matrix
rows (tie between equal similarities broken by matrix position, hence by
user identifier, DESCENDING -- not ascending) and keeping the next k.
Whenever the target's self-similarity strictly exceeds every other user's
similarity to the target, the dropped entry is the target, so the target is
never its own neighbor, each selected neighbor ranks at least as high as
every unselected non-target user in the (similarity, position)-descending
order, and the neighbor list itself is sorted in that order.  (When another
user ties the target's self-similarity the target itself can be selected,
and among ties the higher identifier is preferred; see the
counterexample.) -/
theorem C2_neighbor_selection (dl : DataLoader) (uid k t : Nat)
    (ht : t < (get_user_item_matrix dl).rows.length)
    (hid : rowIdAt (get_user_item_matrix dl) t = uid)
    (hmax : ∀ j, j < (get_user_item_matrix dl).rows.length → j ≠ t →
      ubSims (get_user_item_matrix dl) uid j < ubSims (get_user_item_matrix dl) uid t) :
    uid ∉ ubNeighborIds (get_user_item_matrix dl) uid k ∧
    (∀ i ∈ ubNeighborIdxs (get_user_item_matrix dl) uid k,
      ∀ j, j < (get_user_item_matrix dl).rows.length →
        j ∉ ubNeighborIdxs (get_user_item_matrix dl) uid k → j ≠ t →
        (ubSims (get_user_item_matrix dl) uid j < ubSims (get_user_item_matrix dl) uid i ∨
          (ubSims (get_user_item_matrix dl) uid j = ubSims (get_user_item_matrix dl) uid i ∧
            j < i))) ∧
    ((ubNeighborIdxs (get_user_item_matrix dl) uid k).Pairwise fun i j =>
      ubSims (get_user_item_matrix dl) uid j < ubSims (get_user_item_matrix dl) uid i ∨
        (ubSims (get_user_item_matrix dl) uid j = ubSims (get_user_item_matrix dl) uid i ∧
          j < i)) := by
  obtain ⟨rest, hOrd, htr, hpw, hrest, hall⟩ :=
    argDesc_max (ubSims (get_user_item_matrix dl) uid) ht hmax
  have hOrd' : ubOrder (get_user_item_matrix dl) uid = t :: rest := hOrd
  have hsel : ubNeighborIdxs (get_user_item_matrix dl) uid k = rest.take k := by
    unfold ubNeighborIdxs
    rw [hOrd']
    simp
  refine ⟨?_, ?_, ?_⟩
  · intro hmem
    obtain ⟨i, hi, hival⟩ := List.mem_map.mp hmem
    rw [hsel] at hi
    have hirest : i ∈ rest := List.mem_of_mem_take hi
    obtain ⟨him, hit⟩ := hrest i hirest
    have : rowIdAt (get_user_item_matrix dl) i ≠ uid := by
      rw [← hid]
      exact pairwise_lt_getD_ne (rows_pairwise dl) him ht hit
    exact this hival
  · intro i hi j hjm hjnotin hjt
    rw [hsel] at hi hjnotin
    have hjrest : j ∈ rest := hall j hjm hjt
    have hjdrop : j ∈ rest.drop k := by
      have := (List.take_append_drop k rest) ▸ hjrest
      rcases List.mem_append.mp this with h | h
      · exact absurd h hjnotin
      · exact h
    have hsplit := (List.take_append_drop k rest) ▸ hpw
    have := (List.pairwise_append.mp hsplit).2.2 i hi j hjdrop
    rcases this with h | ⟨h, hlt⟩
    · exact Or.inl h
    · exact Or.inr ⟨h, hlt⟩
  · rw [hsel]
    exact hpw.sublist (List.take_sublist k rest)

/-! Evaluation of the pipeline on dlA: the two rating columns are identical,
    so both item-item similarities to restaurant 1 equal 1, and the argsort
    drop-the-first step removes the wrong entry. -/

theorem dlA_rows : (get_user_item_matrix dlA).rows = [1] := rfl

theorem dlA_cols : (get_user_item_matrix dlA).cols = [1, 2] := rfl

theorem dlA_val11 : (get_user_item_matrix dlA).val 1 1 = 5 := by
  show cellRating dlA.history 1 1 = 5
  simp [cellRating, dlA, List.filter]

theorem dlA_val12 : (get_user_item_matrix dlA).val 1 2 = 5 := by
  show cellRating dlA.history 1 2 = 5
  simp [cellRating, dlA, List.filter]

theorem dlA_dot11 : colDot (get_user_item_matrix dlA) 1 1 = 25 := by
  rw [colDot, dlA_rows]
  simp [listDot, dlA_val11]
  norm_num

theorem dlA_dot21 : colDot (get_user_item_matrix dlA) 2 1 = 25 := by
  rw [colDot, dlA_rows]
  simp [listDot, dlA_val11, dlA_val12]
  norm_num

theorem dlA_dot22 : colDot (get_user_item_matrix dlA) 2 2 = 25 := by
  rw [colDot, dlA_rows]
  simp [listDot, dlA_val12]
  norm_num

theorem dlA_sim11 : itemSim (get_user_item_matrix dlA) 1 1 = 1 := by
  rw [itemSim, dlA_dot11, Real.mul_self_sqrt (by norm_num)]
  norm_num

theorem dlA_sim21 : itemSim (get_user_item_matrix dlA) 2 1 = 1 := by
  rw [itemSim, dlA_dot21, dlA_dot22, dlA_dot11, Real.mul_self_sqrt (by norm_num)]
  norm_num

theorem dlA_srSims0 : srSims (get_user_item_matrix dlA) 1 0 = 1 := dlA_sim11

theorem dlA_srSims1 : srSims (get_user_item_matrix dlA) 1 1 = 1 := dlA_sim21

theorem dlA_sort :
    sortKey (srSims (get_user_item_matrix dlA) 1) (List.range 2) = [0, 1] := by
  rw [show List.range 2 = [0, 1] from rfl, sortKey]
  simp only [List.foldl_cons, List.foldl_nil]
  rw [show insKey (srSims (get_user_item_matrix dlA) 1) 0 [] = [0] from rfl]
  rw [insKey, if_neg (by rw [dlA_srSims1, dlA_srSims0]; norm_num)]
  rfl

theorem dlA_order : srOrder (get_user_item_matrix dlA) 1 = [1, 0] := by
  rw [srOrder, show (get_user_item_matrix dlA).cols.length = 2 from rfl, dlA_sort]
  rfl

theorem dlA_selIds : srSelIds (get_user_item_matrix dlA) 1 1 = [1] := by
  rw [srSelIds, srSelIdxs, dlA_order]
  rfl

theorem dlA_output : get_similar_restaurants dlA 1 1 =
    [(RA1, itemSim (get_user_item_matrix dlA) 1 1)] := by
  simp only [get_similar_restaurants]
  rw [if_pos (by rw [dlA_cols]; decide)]
  rw [dlA_selIds]
  simp [dlA, RA1, RA2, List.filter]
  rfl

/-- C1 is false as stated: in dlA the queried restaurant 1 is present in the
rating matrix, yet the similarity lookup with n = 1 returns restaurant 1
itself (its identical-column twin ties its self-similarity at 1, and the
argsort drop-the-first step removes the twin instead of the queried item). -/
theorem C1_counterexample :
    1 ∈ (get_user_item_matrix dlA).cols ∧
    1 ∈ (get_similar_restaurants dlA 1 1).map fun p => p.1.restaurant_id := by
  constructor
  · rw [dlA_cols]; decide
  · rw [dlA_output]
    simp [RA1]

/-! Evaluation of the pipeline on dlS, where self-similarity is strictly
    maximal (disjoint columns). -/

theorem dlS_rows : (get_user_item_matrix dlS).rows = [1, 2] := rfl

theorem dlS_cols : (get_user_item_matrix dlS).cols = [1, 2] := rfl

theorem dlS_val11 : (get_user_item_matrix dlS).val 1 1 = 5 := by
  show cellRating dlS.history 1 1 = 5
  simp [cellRating, dlS, List.filter]

theorem dlS_val12 : (get_user_item_matrix dlS).val 1 2 = 0 := by
  show cellRating dlS.history 1 2 = 0
  simp [cellRating, dlS, List.filter]

theorem dlS_val21 : (get_user_item_matrix dlS).val 2 1 = 0 := by
  show cellRating dlS.history 2 1 = 0
  simp [cellRating, dlS, List.filter]

theorem dlS_val22 : (get_user_item_matrix dlS).val 2 2 = 3 := by
  show cellRating dlS.history 2 2 = 3
  simp [cellRating, dlS, List.filter]

theorem dlS_dot11 : colDot (get_user_item_matrix dlS) 1 1 = 25 := by
  rw [colDot, dlS_rows]
  simp [listDot, dlS_val11, dlS_val21]
  norm_num

theorem dlS_dot21 : colDot (get_user_item_matrix dlS) 2 1 = 0 := by
  rw [colDot, dlS_rows]
  simp [listDot, dlS_val11, dlS_val12, dlS_val21, dlS_val22]

theorem dlS_sim11 : itemSim (get_user_item_matrix dlS) 1 1 = 1 := by
  rw [itemSim, dlS_dot11, Real.mul_self_sqrt (by norm_num)]
  norm_num

theorem dlS_sim21 : itemSim (get_user_item_matrix dlS) 2 1 = 0 := by
  rw [itemSim, dlS_dot21]
  exact zero_div _

theorem dlS_srSims0 : srSims (get_user_item_matrix dlS) 1 0 = 1 := dlS_sim11

theorem dlS_srSims1 : srSims (get_user_item_matrix dlS) 1 1 = 0 := dlS_sim21

/-- C1 witness: on dlS the hypotheses of the amended similarity-lookup
theorem hold concretely for queried restaurant 1 (self-similarity 1
strictly exceeds the other column's similarity 0), so the lookup excludes
restaurant 1 and is sorted descending. -/
theorem C1_witness :
    0 < (get_user_item_matrix dlS).cols.length ∧
    colIdAt (get_user_item_matrix dlS) 0 = 1 ∧
    ((∀ p ∈ get_similar_restaurants dlS 1 1, p.1.restaurant_id ≠ 1) ∧
      ((get_similar_restaurants dlS 1 1).Pairwise fun p q => q.2 ≤ p.2)) := by
  refine ⟨by rw [dlS_cols]; decide, rfl, ?_⟩
  refine C1_similar_lookup dlS 1 1 0 (by rw [dlS_cols]; decide) rfl ?_
  intro j hj hne
  have hj1 : j = 1 := by
    rw [dlS_cols] at hj
    simp at hj
    omega
  subst hj1
  rw [dlS_srSims1, dlS_srSims0]
  norm_num

/-! Evaluation of the pipeline on dlC: users 2 and 3 are equally similar to
    user 1, and the neighbor selection keeps user 3 (the higher identifier). -/

theorem dlC_rows : (get_user_item_matrix dlC).rows = [1, 2, 3] := rfl

theorem dlC_val11 : (get_user_item_matrix dlC).val 1 1 = 3 := by
  show cellRating dlC.history 1 1 = 3
  simp [cellRating, dlC, List.filter]

theorem dlC_val12 : (get_user_item_matrix dlC).val 1 2 = 4 := by
  show cellRating dlC.history 1 2 = 4
  simp [cellRating, dlC, List.filter]

theorem dlC_val21 : (get_user_item_matrix dlC).val 2 1 = 4 := by
  show cellRating dlC.history 2 1 = 4
  simp [cellRating, dlC, List.filter]

theorem dlC_val22 : (get_user_item_matrix dlC).val 2 2 = 3 := by
  show cellRating dlC.history 2 2 = 3
  simp [cellRating, dlC, List.filter]

theorem dlC_val31 : (get_user_item_matrix dlC).val 3 1 = 4 := by
  show cellRating dlC.history 3 1 = 4
  simp [cellRating, dlC, List.filter]

theorem dlC_val32 : (get_user_item_matrix dlC).val 3 2 = 3 := by
  show cellRating dlC.history 3 2 = 3
  simp [cellRating, dlC, List.filter]

theorem dlC_rdot11 : rowDot (get_user_item_matrix dlC) 1 1 = 25 := by
  rw [rowDot, show (get_user_item_matrix dlC).cols = [1, 2] from rfl]
  simp [listDot, dlC_val11, dlC_val12]
  norm_num

theorem dlC_rdot21 : rowDot (get_user_item_matrix dlC) 2 1 = 24 := by
  rw [rowDot, show (get_user_item_matrix dlC).cols = [1, 2] from rfl]
  simp [listDot, dlC_val11, dlC_val12, dlC_val21, dlC_val22]
  norm_num

theorem dlC_rdot22 : rowDot (get_user_item_matrix dlC) 2 2 = 25 := by
  rw [rowDot, show (get_user_item_matrix dlC).cols = [1, 2] from rfl]
  simp [listDot, dlC_val21, dlC_val22]
  norm_num

theorem dlC_rdot31 : rowDot (get_user_item_matrix dlC) 3 1 = 24 := by
  rw [rowDot, show (get_user_item_matrix dlC).cols = [1, 2] from rfl]
  simp [listDot, dlC_val11, dlC_val12, dlC_val31, dlC_val32]
  norm_num

theorem dlC_rdot33 : rowDot (get_user_item_matrix dlC) 3 3 = 25 := by
  rw [rowDot, show (get_user_item_matrix dlC).cols = [1, 2] from rfl]
  simp [listDot, dlC_val31, dlC_val32]
  norm_num

theorem dlC_usim11 : userSim (get_user_item_matrix dlC) 1 1 = 1 := by
  rw [userSim, dlC_rdot11, Real.mul_self_sqrt (by norm_num)]
  norm_num

theorem dlC_usim21 : userSim (get_user_item_matrix dlC) 2 1 = 24 / 25 := by
  rw [userSim, dlC_rdot21, dlC_rdot22, dlC_rdot11, Real.mul_self_sqrt (by norm_num)]

theorem dlC_usim31 : userSim (get_user_item_matrix dlC) 3 1 = 24 / 25 := by
  rw [userSim, dlC_rdot31, dlC_rdot33, dlC_rdot11, Real.mul_self_sqrt (by norm_num)]

theorem dlC_ubSims0 : ubSims (get_user_item_matrix dlC) 1 0 = 1 := dlC_usim11

theorem dlC_ubSims1 : ubSims (get_user_item_matrix dlC) 1 1 = 24 / 25 := dlC_usim21

theorem dlC_ubSims2 : ubSims (get_user_item_matrix dlC) 1 2 = 24 / 25 := dlC_usim31

theorem dlC_sort :
    sortKey (ubSims (get_user_item_matrix dlC) 1) (List.range 3) = [1, 2, 0] := by
  have h10 : ubSims (get_user_item_matrix dlC) 1 1 < ubSims (get_user_item_matrix dlC) 1 0 := by
    rw [dlC_ubSims1, dlC_ubSims0]
    norm_num
  have h21 : ¬ ubSims (get_user_item_matrix dlC) 1 2 < ubSims (get_user_item_matrix dlC) 1 1 := by
    rw [dlC_ubSims2, dlC_ubSims1]
    norm_num
  have h20 : ubSims (get_user_item_matrix dlC) 1 2 < ubSims (get_user_item_matrix dlC) 1 0 := by
    rw [dlC_ubSims2, dlC_ubSims0]
    norm_num
  rw [show List.range 3 = [0, 1, 2] from rfl, sortKey]
  simp only [List.foldl_cons, List.foldl_nil]
  rw [show insKey (ubSims (get_user_item_matrix dlC) 1) 0 [] = [0] from rfl]
  rw [insKey, if_pos h10]
  rw [insKey, if_neg h21]
  rw [insKey, if_pos h20]

theorem dlC_order : ubOrder (get_user_item_matrix dlC) 1 = [0, 2, 1] := by
  rw [ubOrder, show (get_user_item_matrix dlC).rows.length = 3 from rfl, dlC_sort]
  rfl

/-- C2 is false as stated: in dlC users 2 and 3 have exactly equal cosine
similarity to target user 1, both are present in the matrix, yet the k = 1
neighbor chosen for user 1 is user 3 -- the HIGHER identifier -- because
the reversed stable argsort breaks ties by position descending, not
ascending. -/
theorem C2_counterexample :
    userSim (get_user_item_matrix dlC) 2 1 = userSim (get_user_item_matrix dlC) 3 1 ∧
    2 ∈ (get_user_item_matrix dlC).rows ∧ 3 ∈ (get_user_item_matrix dlC).rows ∧
    ubNeighborIds (get_user_item_matrix dlC) 1 1 = [3] := by
  refine ⟨by rw [dlC_usim21, dlC_usim31], by rw [dlC_rows]; decide, by rw [dlC_rows]; decide, ?_⟩
  rw [ubNeighborIds, ubNeighborIdxs, dlC_order]
  rfl

/-! Evaluation of the pipeline on dlW. -/

theorem dlW_rows : (get_user_item_matrix dlW).rows = [1, 2] := rfl

theorem dlW_cols : (get_user_item_matrix dlW).cols = [1, 2, 3] := rfl

theorem dlW_val11 : (get_user_item_matrix dlW).val 1 1 = 5 := by
  show cellRating dlW.history 1 1 = 5
  simp [cellRating, dlW, List.filter]

theorem dlW_val12 : (get_user_item_matrix dlW).val 1 2 = 0 := by
  show cellRating dlW.history 1 2 = 0
  simp [cellRating, dlW, List.filter]

theorem dlW_val13 : (get_user_item_matrix dlW).val 1 3 = 0 := by
  show cellRating dlW.history 1 3 = 0
  simp [cellRating, dlW, List.filter]

theorem dlW_val21 : (get_user_item_matrix dlW).val 2 1 = 5 := by
  show cellRating dlW.history 2 1 = 5
  simp [cellRating, dlW, List.filter]

theorem dlW_val22 : (get_user_item_matrix dlW).val 2 2 = 4 := by
  show cellRating dlW.history 2 2 = 4
  simp [cellRating, dlW, List.filter]

theorem dlW_val23 : (get_user_item_matrix dlW).val 2 3 = 0 := by
  show cellRating dlW.history 2 3 = 0
  simp [cellRating, dlW, List.filter]

theorem dlW_rdot11 : rowDot (get_user_item_matrix dlW) 1 1 = 25 := by
  rw [rowDot, dlW_cols]
  simp [listDot, dlW_val11, dlW_val12, dlW_val13]
  norm_num

theorem dlW_rdot21 : rowDot (get_user_item_matrix dlW) 2 1 = 25 := by
  rw [rowDot, dlW_cols]
  simp [listDot, dlW_val11, dlW_val12, dlW_val13, dlW_val21, dlW_val22, dlW_val23]
  norm_num

theorem dlW_rdot22 : rowDot (get_user_item_matrix dlW) 2 2 = 41 := by
  rw [rowDot, dlW_cols]
  simp [listDot, dlW_val21, dlW_val22, dlW_val23]
  norm_num

theorem dlW_usim11 : userSim (get_user_item_matrix dlW) 1 1 = 1 := by
  rw [userSim, dlW_rdot11, Real.mul_self_sqrt (by norm_num)]
  norm_num

theorem dlW_usim21_pos : 0 < userSim (get_user_item_matrix dlW) 2 1 := by
  rw [userSim, dlW_rdot21, dlW_rdot22, dlW_rdot11]
  exact div_pos (by norm_num)
    (mul_pos (Real.sqrt_pos.mpr (by norm_num)) (Real.sqrt_pos.mpr (by norm_num)))

theorem dlW_usim21_lt1 : userSim (get_user_item_matrix dlW) 2 1 < 1 := by
  rw [userSim, dlW_rdot21, dlW_rdot22, dlW_rdot11]
  rw [← Real.sqrt_mul (by norm_num : (0:ℝ) ≤ 41) 25]
  rw [div_lt_one (Real.sqrt_pos.mpr (by norm_num))]
  rw [show (41 : ℝ) * 25 = 1025 by norm_num]
  exact (Real.lt_sqrt (by norm_num)).mpr (by norm_num)

theorem dlW_ubSims0 : ubSims (get_user_item_matrix dlW) 1 0 = 1 := dlW_usim11

theorem dlW_ubSims1_lt0 :
    ubSims (get_user_item_matrix dlW) 1 1 < ubSims (get_user_item_matrix dlW) 1 0 := by
  rw [dlW_ubSims0]
  exact dlW_usim21_lt1

theorem dlW_sort :
    sortKey (ubSims (get_user_item_matrix dlW) 1) (List.range 2) = [1, 0] := by
  rw [show List.range 2 = [0, 1] from rfl, sortKey]
  simp only [List.foldl_cons, List.foldl_nil]
  rw [show insKey (ubSims (get_user_item_matrix dlW) 1) 0 [] = [0] from rfl]
  rw [insKey, if_pos dlW_ubSims1_lt0]

theorem dlW_order : ubOrder (get_user_item_matrix dlW) 1 = [0, 1] := by
  rw [ubOrder, show (get_user_item_matrix dlW).rows.length = 2 from rfl, dlW_sort]
  rfl

theorem dlW_nbrs : ubNeighborIdxs (get_user_item_matrix dlW) 1 5 = [1] := by
  rw [ubNeighborIdxs, dlW_order]
  rfl

theorem dlW_sumw2 : ubSumW (get_user_item_matrix dlW) 1 5 2 = userSim (get_user_item_matrix dlW) 2 1 := by
  rw [ubSumW, dlW_nbrs]
  simp only [List.map_cons, List.map_nil, List.sum_cons, List.sum_nil]
  rw [show rowIdAt (get_user_item_matrix dlW) 1 = 2 from rfl, dlW_val22]
  rw [if_pos (by norm_num : (0:ℝ) < 4)]
  rw [mul_one, add_zero]
  rfl

theorem dlW_weighted2 :
    ubWeighted (get_user_item_matrix dlW) 1 5 2 = userSim (get_user_item_matrix dlW) 2 1 * 4 := by
  rw [ubWeighted, dlW_nbrs]
  simp only [List.map_cons, List.map_nil, List.sum_cons, List.sum_nil]
  rw [show rowIdAt (get_user_item_matrix dlW) 1 = 2 from rfl, dlW_val22, add_zero]
  rfl

theorem dlW_pred2 : ubPred (get_user_item_matrix dlW) 1 5 2 = 4 := by
  rw [ubPred, if_neg (by rw [dlW_sumw2]; exact ne_of_gt dlW_usim21_pos)]
  rw [dlW_weighted2, dlW_sumw2, mul_comm]
  exact mul_div_cancel_right₀ 4 (ne_of_gt dlW_usim21_pos)

theorem dlW_sumw3 : ubSumW (get_user_item_matrix dlW) 1 5 3 = 0 := by
  rw [ubSumW, dlW_nbrs]
  simp only [List.map_cons, List.map_nil, List.sum_cons, List.sum_nil]
  rw [show rowIdAt (get_user_item_matrix dlW) 1 = 2 from rfl, dlW_val23]
  rw [if_neg (by norm_num)]
  ring

theorem dlW_pred3 : ubPred (get_user_item_matrix dlW) 1 5 3 = 0 := by
  rw [ubPred, if_pos dlW_sumw3]

theorem dlW_unrated : ubUnrated (get_user_item_matrix dlW) 1 = [2, 3] := by
  rw [ubUnrated, dlW_cols]
  rw [List.filter_cons_of_neg (by simp [dlW_val11])]
  rw [List.filter_cons_of_pos (by simp [dlW_val12])]
  rw [List.filter_cons_of_pos (by simp [dlW_val13])]
  rfl

theorem dlW_cands : ubCandidates (get_user_item_matrix dlW) 1 5 = [(2, 4)] := by
  have h2 : (if 0 < ubPred (get_user_item_matrix dlW) 1 5 2 then
      some ((2 : Nat), ubPred (get_user_item_matrix dlW) 1 5 2) else none) = some (2, 4) := by
    rw [dlW_pred2, if_pos (by norm_num : (0:ℝ) < 4)]
  have h3 : (if 0 < ubPred (get_user_item_matrix dlW) 1 5 3 then
      some ((3 : Nat), ubPred (get_user_item_matrix dlW) 1 5 3) else none) = none := by
    rw [dlW_pred3, if_neg (by norm_num : ¬ (0:ℝ) < 0)]
  rw [ubCandidates, dlW_unrated]
  rw [List.filterMap_cons, List.filterMap_cons, List.filterMap_nil]
  rw [h2, h3]

theorem dlW_user_based : recommend_collaborative_user_based dlW 1 2 5 =
    [⟨2, some 4, some RW2⟩] := by
  simp only [recommend_collaborative_user_based]
  rw [if_pos (show (1 : Nat) ∈ (get_user_item_matrix dlW).rows by rw [dlW_rows]; decide)]
  rw [dlW_cands]
  rw [if_neg (by simp [List.isEmpty_cons])]
  rw [show sortKey (fun p => -p.2) [((2 : Nat), (4 : ℝ))] = [(2, 4)] from rfl]
  rw [show List.take 2 [((2 : Nat), (4 : ℝ))] = [(2, 4)] from rfl]
  rw [mergeDetails]
  simp [dlW, RW1, RW2, List.find?]

/-- C2 witness: on dlW the hypotheses of the amended neighbor-selection
theorem hold concretely for target user 1 at position 0 (its self-similarity
1 strictly exceeds user 2's similarity, which is below 1), so user 1 is not
among its own k = 5 neighbors. -/
theorem C2_witness : 1 ∉ ubNeighborIds (get_user_item_matrix dlW) 1 5 := by
  refine (C2_neighbor_selection dlW 1 5 0 (by rw [dlW_rows]; decide) rfl ?_).1
  intro j hj hne
  have hj1 : j = 1 := by
    rw [dlW_rows] at hj
    simp at hj
    omega
  subst hj1
  exact dlW_ubSims1_lt0

/-- C10: the k_similar_items parameter of recommend_collaborative_item_based
is declared in the source signature (default 5) but never read by the body:
for every data set, user, n and any two parameter values the results are
identical. -/
theorem C10_k_similar_items_unused (dl : DataLoader) (user_id n k1 k2 : Nat) :
    recommend_collaborative_item_based dl user_id n k1 =
      recommend_collaborative_item_based dl user_id n k2 := rfl

/-- C3 (amended): the rating matrix produced by get_user_item_matrix has a
row exactly for every user identifier occurring in a rating event and a
column exactly for every restaurant identifier occurring in a rating event;
the pivot is built from the history alone, so users or restaurants present
in the record sets with no rating events get no all-zero row/column -- they
are absent. -/
theorem C3_matrix_axes (dl : DataLoader) (u r : Nat) :
    (u ∈ (get_user_item_matrix dl).rows ↔ u ∈ dl.history.map RatingEvent.user_id) ∧
    (r ∈ (get_user_item_matrix dl).cols ↔ r ∈ dl.history.map RatingEvent.restaurant_id) :=
  ⟨mem_dedupSorted, mem_dedupSorted⟩

/-- C3 is false as stated: in dlD user 7 and restaurant 9 are present in the
Users/Restaurants record sets but have no rating events, and the rating
matrix has no row 7 and no column 9. -/
theorem C3_counterexample :
    7 ∈ dlD.users ∧ 7 ∉ (get_user_item_matrix dlD).rows ∧
    9 ∈ restIds dlD.restaurants ∧ 9 ∉ (get_user_item_matrix dlD).cols := by
  refine ⟨by decide, ?_, by decide, ?_⟩
  · rw [show (get_user_item_matrix dlD).rows = [1, 2] from rfl]
    decide
  · rw [show (get_user_item_matrix dlD).cols = [1, 99] from rfl]
    decide

/-- C4 (amended): a rating event referencing identifiers absent from the
Users/Restaurants record sets is NOT dropped: matrix construction reads
only the rating events, so every event's user identifier and restaurant
identifier appear as a row and a column regardless of the record sets (and
the event contributes to its cell's mean like any other); no error is
raised. -/
theorem C4_unknown_ids_included (dl : DataLoader) (e : RatingEvent) (he : e ∈ dl.history) :
    e.user_id ∈ (get_user_item_matrix dl).rows ∧
    e.restaurant_id ∈ (get_user_item_matrix dl).cols :=
  ⟨mem_dedupSorted.mpr (List.mem_map_of_mem _ he),
    mem_dedupSorted.mpr (List.mem_map_of_mem _ he)⟩

/-- C4 is false as stated: in dlD the rating event (user 2, restaurant 99,
rating 4) references identifiers absent from both record sets, yet it is
not dropped during matrix construction -- it creates row 2 and column 99
and contributes its rating to that cell. -/
theorem C4_counterexample :
    (⟨2, 99, 4⟩ : RatingEvent) ∈ dlD.history ∧
    2 ∉ dlD.users ∧ 99 ∉ restIds dlD.restaurants ∧
    2 ∈ (get_user_item_matrix dlD).rows ∧ 99 ∈ (get_user_item_matrix dlD).cols ∧
    (get_user_item_matrix dlD).val 2 99 = 4 := by
  refine ⟨List.mem_cons_of_mem _ (List.mem_cons_self _ _), by decide, by decide, ?_, ?_, ?_⟩
  · rw [show (get_user_item_matrix dlD).rows = [1, 2] from rfl]
    decide
  · rw [show (get_user_item_matrix dlD).cols = [1, 99] from rfl]
    decide
  · show cellRating dlD.history 2 99 = 4
    simp [cellRating, dlD, List.filter]

/-- C4 witness: applying the amended unknown-identifier theorem to the
concrete event (2, 99, 4) of dlD. -/
theorem C4_witness :
    ((⟨2, 99, 4⟩ : RatingEvent) ∈ dlD.history) ∧
    (2 ∈ (get_user_item_matrix dlD).rows ∧ 99 ∈ (get_user_item_matrix dlD).cols) :=
  ⟨List.mem_cons_of_mem _ (List.mem_cons_self _ _),
    C4_unknown_ids_included dlD ⟨2, 99, 4⟩
      (List.mem_cons_of_mem _ (List.mem_cons_self _ _))⟩

/-! Cauchy-Schwarz and sign facts for the list dot products, feeding the
    similarity-bound claim. -/

theorem listDot_fin (f g : Nat → ℝ) (l : List Nat) :
    listDot f g l = ∑ i : Fin l.length, f (l.get i) * g (l.get i) := by
  rw [listDot]
  conv_lhs => rw [← List.ofFn_get l, List.map_ofFn, List.sum_ofFn]
  rfl

theorem listDot_comm (f g : Nat → ℝ) (l : List Nat) : listDot f g l = listDot g f l := by
  simp [listDot, mul_comm]

theorem listDot_nonneg {f g : Nat → ℝ} (l : List Nat) (hf : ∀ i, 0 ≤ f i)
    (hg : ∀ i, 0 ≤ g i) : 0 ≤ listDot f g l := by
  rw [listDot]
  apply List.sum_nonneg
  intro x hx
  obtain ⟨i, _, rfl⟩ := List.mem_map.mp hx
  exact mul_nonneg (hf i) (hg i)

theorem listDot_sq_le (f g : Nat → ℝ) (l : List Nat) :
    listDot f g l ^ 2 ≤ listDot f f l * listDot g g l := by
  rw [listDot_fin f g l, listDot_fin f f l, listDot_fin g g l]
  have h := Finset.sum_mul_sq_le_sq_mul_sq Finset.univ
    (fun i : Fin l.length => f (l.get i)) (fun i : Fin l.length => g (l.get i))
  calc (∑ i : Fin l.length, f (l.get i) * g (l.get i)) ^ 2
      ≤ (∑ i : Fin l.length, f (l.get i) ^ 2) * ∑ i : Fin l.length, g (l.get i) ^ 2 := h
    _ = (∑ i : Fin l.length, f (l.get i) * f (l.get i)) *
        ∑ i : Fin l.length, g (l.get i) * g (l.get i) := by
      simp [pow_two]

theorem listDot_self_eq_zero {f : Nat → ℝ} :
    ∀ {l : List Nat}, listDot f f l = 0 → ∀ i ∈ l, f i = 0 := by
  intro l
  induction l with
  | nil => simp
  | cons a l ih =>
    intro h i hi
    rw [listDot, List.map_cons, List.sum_cons] at h
    have h1 : 0 ≤ f a * f a := mul_self_nonneg _
    have h2 : 0 ≤ (l.map fun i => f i * f i).sum := by
      apply List.sum_nonneg
      intro x hx
      obtain ⟨j, _, rfl⟩ := List.mem_map.mp hx
      exact mul_self_nonneg _
    have ha : f a * f a = 0 := by linarith
    have hb : listDot f f l = 0 := by
      rw [listDot]
      linarith
    rcases List.mem_cons.mp hi with rfl | hi
    · exact mul_self_eq_zero.mp ha
    · exact ih hb i hi

theorem listDot_eq_zero_left {f g : Nat → ℝ} {l : List Nat} (h : ∀ i ∈ l, f i = 0) :
    listDot f g l = 0 := by
  rw [listDot]
  apply List.sum_eq_zero
  intro x hx
  obtain ⟨i, hi, rfl⟩ := List.mem_map.mp hx
  rw [h i hi, zero_mul]

theorem cos_bounds {d a b : ℝ} (hd : 0 ≤ d) (ha : 0 ≤ a) (hb : 0 ≤ b)
    (hcs : d ^ 2 ≤ a * b) :
    0 ≤ d / (Real.sqrt a * Real.sqrt b) ∧ d / (Real.sqrt a * Real.sqrt b) ≤ 1 := by
  constructor
  · exact div_nonneg hd (mul_nonneg (Real.sqrt_nonneg a) (Real.sqrt_nonneg b))
  · rcases eq_or_lt_of_le (mul_nonneg (Real.sqrt_nonneg a) (Real.sqrt_nonneg b)) with h | h
    · rw [← h, div_zero]
      norm_num
    · rw [div_le_one h, ← Real.sqrt_mul ha b]
      exact (Real.le_sqrt hd (mul_nonneg ha hb)).mpr hcs

theorem cellRating_nonneg {h : List RatingEvent} (hr : ∀ e ∈ h, 0 ≤ e.rating)
    (u r : Nat) : 0 ≤ cellRating h u r := by
  rw [cellRating]
  split
  · exact le_refl 0
  · apply div_nonneg
    · apply List.sum_nonneg
      intro x hx
      obtain ⟨e, he, rfl⟩ := List.mem_map.mp hx
      exact hr e (List.mem_of_mem_filter he)
    · positivity

/-- C6: on a rating matrix with non-negative entries, both similarity
matrices satisfy the claimed invariants: every user-user and item-item
cosine similarity lies in the closed interval from 0 to 1; similarity is
symmetric; the self-similarity of any row/column with non-zero norm is 1;
and a row/column with zero norm (no ratings at all) has similarity 0 to
every other row/column. -/
theorem C6_similarity_bounds (M : UserItemMatrix)
    (hpos : ∀ u r, 0 ≤ M.val u r) (u v r s : Nat) :
    (0 ≤ userSim M u v ∧ userSim M u v ≤ 1) ∧
    userSim M u v = userSim M v u ∧
    (rowDot M u u ≠ 0 → userSim M u u = 1) ∧
    (rowDot M u u = 0 → userSim M u v = 0) ∧
    (0 ≤ itemSim M r s ∧ itemSim M r s ≤ 1) ∧
    itemSim M r s = itemSim M s r ∧
    (colDot M r r ≠ 0 → itemSim M r r = 1) ∧
    (colDot M r r = 0 → itemSim M r s = 0) := by
  have hrd : ∀ a b : Nat, 0 ≤ rowDot M a b := fun a b =>
    listDot_nonneg M.cols (hpos a) (hpos b)
  have hcd : ∀ a b : Nat, 0 ≤ colDot M a b := fun a b =>
    listDot_nonneg M.rows (fun i => hpos i a) (fun i => hpos i b)
  refine ⟨?_, ?_, ?_, ?_, ?_, ?_, ?_, ?_⟩
  · exact cos_bounds (hrd u v) (hrd u u) (hrd v v) (listDot_sq_le _ _ _)
  · rw [userSim, userSim, show rowDot M u v = rowDot M v u from listDot_comm _ _ _, mul_comm]
  · intro hne
    rw [userSim, Real.mul_self_sqrt (hrd u u), div_self hne]
  · intro hzero
    rw [userSim, show rowDot M u v = 0 from listDot_eq_zero_left
      (listDot_self_eq_zero hzero), zero_div]
  · exact cos_bounds (hcd r s) (hcd r r) (hcd s s) (listDot_sq_le _ _ _)
  · rw [itemSim, itemSim, show colDot M r s = colDot M s r from listDot_comm _ _ _, mul_comm]
  · intro hne
    rw [itemSim, Real.mul_self_sqrt (hcd r r), div_self hne]
  · intro hzero
    rw [itemSim, show colDot M r s = 0 from listDot_eq_zero_left
      (listDot_self_eq_zero hzero), zero_div]

/-- C6 witness: the rating matrix of dlS has non-negative entries (ratings 5
and 3), and the similarity invariants follow at users 1, 2 and restaurants
1, 2. -/
theorem C6_witness :
    (∀ u r, 0 ≤ (get_user_item_matrix dlS).val u r) ∧
    ((0 ≤ userSim (get_user_item_matrix dlS) 1 2 ∧ userSim (get_user_item_matrix dlS) 1 2 ≤ 1) ∧
    userSim (get_user_item_matrix dlS) 1 2 = userSim (get_user_item_matrix dlS) 2 1 ∧
    (rowDot (get_user_item_matrix dlS) 1 1 ≠ 0 → userSim (get_user_item_matrix dlS) 1 1 = 1) ∧
    (rowDot (get_user_item_matrix dlS) 1 1 = 0 → userSim (get_user_item_matrix dlS) 1 2 = 0) ∧
    (0 ≤ itemSim (get_user_item_matrix dlS) 1 2 ∧ itemSim (get_user_item_matrix dlS) 1 2 ≤ 1) ∧
    itemSim (get_user_item_matrix dlS) 1 2 = itemSim (get_user_item_matrix dlS) 2 1 ∧
    (colDot (get_user_item_matrix dlS) 1 1 ≠ 0 → itemSim (get_user_item_matrix dlS) 1 1 = 1) ∧
    (colDot (get_user_item_matrix dlS) 1 1 = 0 → itemSim (get_user_item_matrix dlS) 1 2 = 0)) := by
  have hpos : ∀ u r, 0 ≤ (get_user_item_matrix dlS).val u r := by
    intro u r
    apply cellRating_nonneg
    intro e he
    simp only [dlS, List.mem_cons, List.not_mem_nil, or_false] at he
    rcases he with rfl | rfl <;> norm_num
  exact ⟨hpos, C6_similarity_bounds (get_user_item_matrix dlS) hpos 1 2 1 2⟩

theorem rowIds_mergeDetails (dl : DataLoader) (l : List (Nat × ℝ)) :
    rowIds (mergeDetails dl l) = l.map Prod.fst := by
  simp only [rowIds, mergeDetails, List.map_map]
  rfl

theorem mem_map_fst_of_take_sort {l : List (Nat × ℝ)} {n r : Nat}
    (h : r ∈ ((sortKey (fun p => -p.2) l).take n).map Prod.fst) :
    r ∈ l.map Prod.fst := by
  obtain ⟨p, hp, rfl⟩ := List.mem_map.mp h
  exact List.mem_map_of_mem _ ((sortKey_perm _ _).mem_iff.mp (List.mem_of_mem_take hp))

/-- C9: every division in the two predictors is guarded.  A candidate
restaurant whose total neighbor weight (user-based) or total
positive-similarity sum (item-based) is zero never enters the candidate
list, and hence never appears in the collaborative result: whenever the
predictor does not fall back to popularity, such a restaurant is absent
from the returned rows; no division by that zero sum is ever evaluated
(the user-based np.divide writes 0 where the mask fails, and the
item-based accumulation only divides inside the positive test). -/
theorem C9_zero_weight_guard (dl : DataLoader) (uid n k r : Nat) :
    (ubSumW (get_user_item_matrix dl) uid k r = 0 →
      r ∉ (ubCandidates (get_user_item_matrix dl) uid k).map Prod.fst) ∧
    (ubSumW (get_user_item_matrix dl) uid k r = 0 →
      recommend_collaborative_user_based dl uid n k = popRows dl n ∨
      r ∉ rowIds (recommend_collaborative_user_based dl uid n k)) ∧
    (ibSimSum (get_user_item_matrix dl) uid r = 0 →
      r ∉ (ibPredictions (get_user_item_matrix dl) uid).map Prod.fst) ∧
    (ibSimSum (get_user_item_matrix dl) uid r = 0 →
      recommend_collaborative_item_based dl uid n k = popRows dl n ∨
      r ∉ rowIds (recommend_collaborative_item_based dl uid n k)) := by
  have hub : ubSumW (get_user_item_matrix dl) uid k r = 0 →
      r ∉ (ubCandidates (get_user_item_matrix dl) uid k).map Prod.fst := by
    intro h0 hmem
    obtain ⟨p, hp, hfst⟩ := List.mem_map.mp hmem
    obtain ⟨a, _, hsome⟩ := List.mem_filterMap.mp hp
    by_cases hlt : 0 < ubPred (get_user_item_matrix dl) uid k a
    · rw [if_pos hlt] at hsome
      obtain rfl := Option.some_injective _ hsome
      have ha : a = r := hfst
      subst ha
      rw [ubPred, if_pos h0] at hlt
      exact lt_irrefl 0 hlt
    · rw [if_neg hlt] at hsome
      exact Option.noConfusion hsome
  have hib : ibSimSum (get_user_item_matrix dl) uid r = 0 →
      r ∉ (ibPredictions (get_user_item_matrix dl) uid).map Prod.fst := by
    intro h0 hmem
    obtain ⟨p, hp, hfst⟩ := List.mem_map.mp hmem
    obtain ⟨a, _, hsome⟩ := List.mem_filterMap.mp hp
    by_cases hlt : 0 < ibSimSum (get_user_item_matrix dl) uid a
    · rw [if_pos hlt] at hsome
      obtain rfl := Option.some_injective _ hsome
      have ha : a = r := hfst
      subst ha
      rw [h0] at hlt
      exact lt_irrefl 0 hlt
    · rw [if_neg hlt] at hsome
      exact Option.noConfusion hsome
  refine ⟨hub, ?_, hib, ?_⟩
  · intro h0
    simp only [recommend_collaborative_user_based]
    by_cases hk : uid ∈ (get_user_item_matrix dl).rows
    · rw [if_pos hk]
      by_cases hc : (ubCandidates (get_user_item_matrix dl) uid k).isEmpty
      · rw [if_pos hc]
        exact Or.inl rfl
      · rw [if_neg hc]
        refine Or.inr ?_
        intro hmem
        rw [rowIds_mergeDetails] at hmem
        exact hub h0 (mem_map_fst_of_take_sort hmem)
    · rw [if_neg hk]
      exact Or.inl rfl
  · intro h0
    simp only [recommend_collaborative_item_based]
    by_cases hk : uid ∈ (get_user_item_matrix dl).rows
    · rw [if_pos hk]
      by_cases hr : (ibRated (get_user_item_matrix dl) uid).isEmpty
      · rw [if_pos hr]
        exact Or.inl rfl
      · rw [if_neg hr]
        by_cases hp : (ibPredictions (get_user_item_matrix dl) uid).isEmpty
        · rw [if_pos hp]
          exact Or.inl rfl
        · rw [if_neg hp]
          refine Or.inr ?_
          intro hmem
          rw [rowIds_mergeDetails] at hmem
          exact hib h0 (mem_map_fst_of_take_sort hmem)
    · rw [if_neg hk]
      exact Or.inl rfl

/-! Item-based and popularity evaluation on dlW. -/

theorem dlW_rated : ibRated (get_user_item_matrix dlW) 1 = [(1, 5)] := by
  have h1 : (if 0 < (get_user_item_matrix dlW).val 1 1 then
      some ((1 : Nat), (get_user_item_matrix dlW).val 1 1) else none) = some (1, 5) := by
    rw [dlW_val11, if_pos (by norm_num : (0:ℝ) < 5)]
  have h2 : (if 0 < (get_user_item_matrix dlW).val 1 2 then
      some ((2 : Nat), (get_user_item_matrix dlW).val 1 2) else none) = none := by
    rw [dlW_val12, if_neg (by norm_num : ¬ (0:ℝ) < 0)]
  have h3 : (if 0 < (get_user_item_matrix dlW).val 1 3 then
      some ((3 : Nat), (get_user_item_matrix dlW).val 1 3) else none) = none := by
    rw [dlW_val13, if_neg (by norm_num : ¬ (0:ℝ) < 0)]
  rw [ibRated, dlW_cols]
  rw [List.filterMap_cons, List.filterMap_cons, List.filterMap_cons, List.filterMap_nil]
  rw [h1, h2, h3]

theorem dlW_cdot11 : colDot (get_user_item_matrix dlW) 1 1 = 50 := by
  rw [colDot, dlW_rows]
  simp [listDot, dlW_val11, dlW_val21]
  norm_num

theorem dlW_cdot21 : colDot (get_user_item_matrix dlW) 2 1 = 20 := by
  rw [colDot, dlW_rows]
  simp [listDot, dlW_val11, dlW_val12, dlW_val21, dlW_val22]
  norm_num

theorem dlW_cdot22 : colDot (get_user_item_matrix dlW) 2 2 = 16 := by
  rw [colDot, dlW_rows]
  simp [listDot, dlW_val12, dlW_val22]
  norm_num

theorem dlW_cdot31 : colDot (get_user_item_matrix dlW) 3 1 = 0 := by
  rw [colDot, dlW_rows]
  simp [listDot, dlW_val11, dlW_val13, dlW_val21, dlW_val23]

theorem dlW_isim21_pos : 0 < itemSim (get_user_item_matrix dlW) 2 1 := by
  rw [itemSim, dlW_cdot21, dlW_cdot22, dlW_cdot11]
  exact div_pos (by norm_num)
    (mul_pos (Real.sqrt_pos.mpr (by norm_num)) (Real.sqrt_pos.mpr (by norm_num)))

theorem dlW_isim31 : itemSim (get_user_item_matrix dlW) 3 1 = 0 := by
  rw [itemSim, dlW_cdot31]
  exact zero_div _

theorem dlW_ibsum2 :
    ibSimSum (get_user_item_matrix dlW) 1 2 = itemSim (get_user_item_matrix dlW) 2 1 := by
  rw [ibSimSum, dlW_rated]
  simp only [List.map_cons, List.map_nil, List.sum_cons, List.sum_nil]
  rw [if_pos dlW_isim21_pos, add_zero]

theorem dlW_ibw2 :
    ibWSum (get_user_item_matrix dlW) 1 2 = itemSim (get_user_item_matrix dlW) 2 1 * 5 := by
  rw [ibWSum, dlW_rated]
  simp only [List.map_cons, List.map_nil, List.sum_cons, List.sum_nil]
  rw [if_pos dlW_isim21_pos, add_zero]

theorem dlW_ibsum3 : ibSimSum (get_user_item_matrix dlW) 1 3 = 0 := by
  rw [ibSimSum, dlW_rated]
  simp only [List.map_cons, List.map_nil, List.sum_cons, List.sum_nil]
  rw [if_neg (by rw [dlW_isim31]; norm_num), add_zero]

theorem dlW_preds : ibPredictions (get_user_item_matrix dlW) 1 = [(2, 5)] := by
  have h2 : (if 0 < ibSimSum (get_user_item_matrix dlW) 1 2 then
      some ((2 : Nat), ibWSum (get_user_item_matrix dlW) 1 2 /
        ibSimSum (get_user_item_matrix dlW) 1 2) else none) = some (2, 5) := by
    rw [if_pos (by rw [dlW_ibsum2]; exact dlW_isim21_pos)]
    rw [dlW_ibw2, dlW_ibsum2, mul_comm]
    rw [mul_div_cancel_right₀ 5 (ne_of_gt dlW_isim21_pos)]
  have h3 : (if 0 < ibSimSum (get_user_item_matrix dlW) 1 3 then
      some ((3 : Nat), ibWSum (get_user_item_matrix dlW) 1 3 /
        ibSimSum (get_user_item_matrix dlW) 1 3) else none) = none := by
    rw [if_neg (by rw [dlW_ibsum3]; norm_num)]
  rw [ibPredictions, dlW_unrated]
  rw [List.filterMap_cons, List.filterMap_cons, List.filterMap_nil]
  rw [h2, h3]

theorem dlW_item_based : recommend_collaborative_item_based dlW 1 2 5 =
    [⟨2, some 5, some RW2⟩] := by
  simp only [recommend_collaborative_item_based]
  rw [if_pos (show (1 : Nat) ∈ (get_user_item_matrix dlW).rows by rw [dlW_rows]; decide)]
  rw [dlW_rated]
  rw [if_neg (by simp [List.isEmpty_cons])]
  rw [dlW_preds]
  rw [if_neg (by simp [List.isEmpty_cons])]
  rw [show sortKey (fun p => -p.2) [((2 : Nat), (5 : ℝ))] = [(2, 5)] from rfl]
  rw [show List.take 2 [((2 : Nat), (5 : ℝ))] = [(2, 5)] from rfl]
  rw [mergeDetails]
  simp [dlW, RW1, RW2, List.find?]

theorem dlW_popKey_not_lt : ¬ popKey RW2 < popKey RW1 := by
  rw [popKey, popKey, Prod.Lex.lt_iff]
  simp only [RW1, RW2]
  norm_num

theorem dlW_pop : recommend_by_average_rating dlW 2 none none none 5 = [RW1, RW2] := by
  simp only [recommend_by_average_rating, filter_restaurants]
  rw [if_neg (by norm_num : ¬ (0:ℝ) < 0)]
  rw [show dlW.restaurants = [RW1, RW2, RW3] from rfl]
  rw [List.filter_cons_of_pos (by decide), List.filter_cons_of_pos (by decide),
    List.filter_cons_of_neg (by decide), List.filter_nil]
  rw [sortKey]
  simp only [List.foldl_cons, List.foldl_nil]
  rw [show insKey popKey RW1 [] = [RW1] from rfl]
  rw [insKey, if_neg dlW_popKey_not_lt]
  rfl

theorem dlW_popRows : popRows dlW 2 =
    [⟨1, none, some RW1⟩, ⟨2, none, some RW2⟩] := by
  rw [popRows, dlW_pop]
  rfl

/-- C9 witness: in dlW restaurant 3 is unrated by user 1, its total neighbor
weight in the user-based predictor and its positive-similarity sum in the
item-based predictor are both zero, and restaurant 3 appears in neither
candidate list nor in either collaborative result. -/
theorem C9_witness :
    ubSumW (get_user_item_matrix dlW) 1 5 3 = 0 ∧
    ibSimSum (get_user_item_matrix dlW) 1 3 = 0 ∧
    3 ∉ (ubCandidates (get_user_item_matrix dlW) 1 5).map Prod.fst ∧
    (recommend_collaborative_user_based dlW 1 2 5 = popRows dlW 2 ∨
      3 ∉ rowIds (recommend_collaborative_user_based dlW 1 2 5)) ∧
    3 ∉ (ibPredictions (get_user_item_matrix dlW) 1).map Prod.fst ∧
    (recommend_collaborative_item_based dlW 1 2 5 = popRows dlW 2 ∨
      3 ∉ rowIds (recommend_collaborative_item_based dlW 1 2 5)) :=
  ⟨dlW_sumw3, dlW_ibsum3,
    (C9_zero_weight_guard dlW 1 2 5 3).1 dlW_sumw3,
    (C9_zero_weight_guard dlW 1 2 5 3).2.1 dlW_sumw3,
    (C9_zero_weight_guard dlW 1 2 5 3).2.2.1 dlW_ibsum3,
    (C9_zero_weight_guard dlW 1 2 5 3).2.2.2 dlW_ibsum3⟩

/-! Lemmas about the combined_scores dict (upsert / addSource). -/

theorem scoreLookup_nil (i : Nat) : scoreLookup [] i = none := rfl

theorem scoreLookup_cons_self (j : Nat) (v : ℝ) (m : List (Nat × ℝ)) :
    scoreLookup ((j, v) :: m) j = some v := by
  rw [scoreLookup, List.find?_cons_of_pos _ (by simp)]
  rfl

theorem scoreLookup_cons_ne {j i : Nat} (v : ℝ) (m : List (Nat × ℝ)) (h : j ≠ i) :
    scoreLookup ((j, v) :: m) i = scoreLookup m i := by
  rw [scoreLookup, List.find?_cons_of_neg _ (by simp [h]), scoreLookup]

theorem scoreLookup_upsert_self (i : Nat) (s : ℝ) :
    ∀ m : List (Nat × ℝ), scoreLookup (upsert m i s) i = some ((scoreLookup m i).getD 0 + s)
  | [] => by
    rw [show upsert [] i s = [(i, s)] from rfl, scoreLookup_cons_self, scoreLookup_nil]
    norm_num
  | (j, v) :: m => by
    by_cases hji : j = i
    · subst hji
      rw [show upsert ((j, v) :: m) j s = (j, v + s) :: m from by rw [upsert, if_pos rfl]]
      rw [scoreLookup_cons_self, scoreLookup_cons_self]
      rfl
    · rw [show upsert ((j, v) :: m) i s = (j, v) :: upsert m i s from by rw [upsert, if_neg hji]]
      rw [scoreLookup_cons_ne _ _ hji, scoreLookup_cons_ne _ _ hji]
      exact scoreLookup_upsert_self i s m

theorem scoreLookup_upsert_ne {i i' : Nat} (s : ℝ) (h : i' ≠ i) :
    ∀ m : List (Nat × ℝ), scoreLookup (upsert m i' s) i = scoreLookup m i
  | [] => by
    rw [show upsert [] i' s = [(i', s)] from rfl, scoreLookup_cons_ne _ _ h, scoreLookup_nil]
  | (j, v) :: m => by
    by_cases hji : j = i'
    · subst hji
      rw [show upsert ((j, v) :: m) j s = (j, v + s) :: m from by rw [upsert, if_pos rfl]]
      by_cases hj : j = i
      · exact absurd hj h
      · rw [scoreLookup_cons_ne _ _ hj, scoreLookup_cons_ne _ _ hj]
    · rw [show upsert ((j, v) :: m) i' s = (j, v) :: upsert m i' s from by rw [upsert, if_neg hji]]
      by_cases hj : j = i
      · subst hj
        rw [scoreLookup_cons_self, scoreLookup_cons_self]
      · rw [scoreLookup_cons_ne _ _ hj, scoreLookup_cons_ne _ _ hj]
        exact scoreLookup_upsert_ne s h m

theorem scoreLookup_addSource_not_mem (w : ℝ) {i : Nat} :
    ∀ (src : List RecRow) (acc : List (Nat × ℝ)), i ∉ rowIds src →
      scoreLookup (addSource acc src w) i = scoreLookup acc i
  | [], _, _ => rfl
  | row :: src, acc, h => by
    rw [show addSource acc (row :: src) w =
      addSource (upsert acc row.restaurant_id (rowScoreContrib w row)) src w from rfl]
    have h1 : i ∉ rowIds src := fun hh => h (List.mem_cons_of_mem _ hh)
    have h2 : row.restaurant_id ≠ i := by
      intro hh
      apply h
      rw [show rowIds (row :: src) = row.restaurant_id :: rowIds src from rfl, hh]
      exact List.mem_cons_self _ _
    rw [scoreLookup_addSource_not_mem w src _ h1, scoreLookup_upsert_ne _ h2 acc]

theorem scoreLookup_addSource_mem (w : ℝ) {i : Nat} {row : RecRow} :
    ∀ (src : List RecRow) (acc : List (Nat × ℝ)), (rowIds src).Nodup → row ∈ src →
      row.restaurant_id = i →
      scoreLookup (addSource acc src w) i =
        some ((scoreLookup acc i).getD 0 + rowScoreContrib w row)
  | [], _, _, hmem, _ => absurd hmem (List.not_mem_nil row)
  | q :: src, acc, hnodup, hmem, hid => by
    rw [show addSource acc (q :: src) w =
      addSource (upsert acc q.restaurant_id (rowScoreContrib w q)) src w from rfl]
    have hnd := List.nodup_cons.mp
      (show (q.restaurant_id :: rowIds src).Nodup from hnodup)
    rcases List.mem_cons.mp hmem with rfl | hmem'
    · subst hid
      rw [scoreLookup_addSource_not_mem w src _ hnd.1]
      exact scoreLookup_upsert_self _ _ acc
    · have hqi : q.restaurant_id ≠ i := by
        intro he
        apply hnd.1
        rw [he, ← hid]
        exact List.mem_map_of_mem _ hmem'
      rw [scoreLookup_addSource_mem w src _ hnd.2 hmem' hid]
      rw [scoreLookup_upsert_ne _ hqi acc]

/-! Uniqueness of restaurant identifiers in each hybrid source (given the
    data-model invariant that restaurant identifiers are unique). -/

theorem filter_restaurants_default (dl : DataLoader) :
    filter_restaurants dl none none none 0 = dl.restaurants := by
  simp only [filter_restaurants]
  rw [if_neg (by norm_num : ¬ (0:ℝ) < 0)]

theorem pop_ids_nodup (dl : DataLoader) (n : Nat)
    (h : (dl.restaurants.map Restaurant.restaurant_id).Nodup) :
    ((recommend_by_average_rating dl n none none none 5).map Restaurant.restaurant_id).Nodup := by
  simp only [recommend_by_average_rating, filter_restaurants_default]
  have h2 : (((dl.restaurants.filter fun r => 5 ≤ r.num_reviews).map
      Restaurant.restaurant_id)).Nodup :=
    List.Nodup.sublist ((List.filter_sublist _).map _) h
  have h3 : (((sortKey popKey (dl.restaurants.filter fun r => 5 ≤ r.num_reviews)).map
      Restaurant.restaurant_id)).Nodup :=
    (((sortKey_perm popKey _).map _).nodup_iff).mpr h2
  rw [List.map_take]
  exact List.Nodup.sublist (List.take_sublist _ _) h3

theorem rowIds_popRows (dl : DataLoader) (n : Nat) :
    rowIds (popRows dl n) =
      (recommend_by_average_rating dl n none none none 5).map Restaurant.restaurant_id := by
  simp only [rowIds, popRows, List.map_map]
  rfl

theorem filterMap_if_eq (p : Nat → Prop) [DecidablePred p] (f : Nat → ℝ) :
    ∀ l : List Nat, (l.filterMap fun r => if p r then some (r, f r) else none) =
      (l.filter fun r => decide (p r)).map fun r => (r, f r)
  | [] => rfl
  | a :: l => by
    rw [List.filterMap_cons]
    by_cases hpa : p a
    · rw [if_pos hpa, List.filter_cons_of_pos (by simp [hpa])]
      show (a, f a) :: (l.filterMap fun r => if p r then some (r, f r) else none) = _
      rw [List.map_cons, filterMap_if_eq p f l]
    · rw [if_neg hpa, List.filter_cons_of_neg (by simp [hpa])]
      show (l.filterMap fun r => if p r then some (r, f r) else none) = _
      rw [filterMap_if_eq p f l]

theorem fst_filterMap_if_sublist (p : Nat → Prop) [DecidablePred p] (f : Nat → ℝ)
    (l : List Nat) :
    ((l.filterMap fun r => if p r then some (r, f r) else none).map Prod.fst).Sublist l := by
  rw [filterMap_if_eq p f l, List.map_map]
  have : (Prod.fst ∘ fun r : Nat => (r, f r)) = id := rfl
  rw [this, List.map_id]
  exact List.filter_sublist l

theorem ubUnrated_nodup (dl : DataLoader) (uid : Nat) :
    (ubUnrated (get_user_item_matrix dl) uid).Nodup :=
  List.Nodup.sublist (List.filter_sublist _) (dedupSorted_nodup _)

theorem ubCandidates_ids_nodup (dl : DataLoader) (uid k : Nat) :
    ((ubCandidates (get_user_item_matrix dl) uid k).map Prod.fst).Nodup :=
  List.Nodup.sublist (fst_filterMap_if_sublist _ _ _) (ubUnrated_nodup dl uid)

theorem ibPredictions_ids_nodup (dl : DataLoader) (uid : Nat) :
    ((ibPredictions (get_user_item_matrix dl) uid).map Prod.fst).Nodup :=
  List.Nodup.sublist (fst_filterMap_if_sublist _ _ _) (ubUnrated_nodup dl uid)

theorem take_sort_ids_nodup {l : List (Nat × ℝ)} (n : Nat) (h : (l.map Prod.fst).Nodup) :
    (((sortKey (fun p => -p.2) l).take n).map Prod.fst).Nodup := by
  rw [List.map_take]
  refine List.Nodup.sublist (List.take_sublist _ _) ?_
  exact (((sortKey_perm _ l).map _).nodup_iff).mpr h

theorem ub_ids_nodup (dl : DataLoader) (uid n k : Nat)
    (h : (dl.restaurants.map Restaurant.restaurant_id).Nodup) :
    (rowIds (recommend_collaborative_user_based dl uid n k)).Nodup := by
  simp only [recommend_collaborative_user_based]
  by_cases hk : uid ∈ (get_user_item_matrix dl).rows
  · rw [if_pos hk]
    by_cases hc : (ubCandidates (get_user_item_matrix dl) uid k).isEmpty
    · rw [if_pos hc, rowIds_popRows]
      exact pop_ids_nodup dl n h
    · rw [if_neg hc, rowIds_mergeDetails]
      exact take_sort_ids_nodup n (ubCandidates_ids_nodup dl uid k)
  · rw [if_neg hk, rowIds_popRows]
    exact pop_ids_nodup dl n h

theorem ib_ids_nodup (dl : DataLoader) (uid n k : Nat)
    (h : (dl.restaurants.map Restaurant.restaurant_id).Nodup) :
    (rowIds (recommend_collaborative_item_based dl uid n k)).Nodup := by
  simp only [recommend_collaborative_item_based]
  by_cases hk : uid ∈ (get_user_item_matrix dl).rows
  · rw [if_pos hk]
    by_cases hr : (ibRated (get_user_item_matrix dl) uid).isEmpty
    · rw [if_pos hr, rowIds_popRows]
      exact pop_ids_nodup dl n h
    · rw [if_neg hr]
      by_cases hp : (ibPredictions (get_user_item_matrix dl) uid).isEmpty
      · rw [if_pos hp, rowIds_popRows]
        exact pop_ids_nodup dl n h
      · rw [if_neg hp, rowIds_mergeDetails]
        exact take_sort_ids_nodup n (ibPredictions_ids_nodup dl uid)
  · rw [if_neg hk, rowIds_popRows]
    exact pop_ids_nodup dl n h

/-- C7: for any data set with unique restaurant identifiers and a restaurant
appearing in all three hybrid sources -- in the user-based CF list with
predicted score su, in the item-based CF list with predicted score si, and
in the popularity list with average rating sp -- and any non-negative
weights, the hybrid combined score of that restaurant equals
su * w_user + si * w_item + sp * w_popularity exactly (the real-number
embedding carries no floating-point error), with no renormalization. -/
theorem C7_hybrid_additivity (dl : DataLoader) (uid n : Nat) (wu wi wp su si sp : ℝ)
    (r : Nat)
    (hnodup : (dl.restaurants.map Restaurant.restaurant_id).Nodup)
    (hwu : 0 ≤ wu) (hwi : 0 ≤ wi) (hwp : 0 ≤ wp)
    (hu : ∃ row ∈ recommend_collaborative_user_based dl uid (2 * n) 5,
      row.restaurant_id = r ∧ row.score = some su)
    (hi : ∃ row ∈ recommend_collaborative_item_based dl uid (2 * n) 5,
      row.restaurant_id = r ∧ row.score = some si)
    (hp : ∃ q ∈ recommend_by_average_rating dl (2 * n) none none none 5,
      q.restaurant_id = r ∧ q.avg_rating = sp) :
    scoreLookup (hybridScores dl uid n wu wi wp) r = some (su * wu + si * wi + sp * wp) := by
  obtain ⟨rowU, hrowU, hidU, hscU⟩ := hu
  obtain ⟨rowI, hrowI, hidI, hscI⟩ := hi
  obtain ⟨q, hq, hidq, havq⟩ := hp
  have hPnodup : (rowIds (popRows dl (2 * n))).Nodup := by
    rw [rowIds_popRows]
    exact pop_ids_nodup dl (2 * n) hnodup
  have hrowP : (⟨q.restaurant_id, none, some q⟩ : RecRow) ∈ popRows dl (2 * n) :=
    List.mem_map_of_mem _ hq
  rw [hybridScores]
  rw [scoreLookup_addSource_mem wp (popRows dl (2 * n)) _ hPnodup hrowP hidq]
  rw [scoreLookup_addSource_mem wi _ _ (ib_ids_nodup dl uid (2 * n) 5 hnodup) hrowI hidI]
  rw [scoreLookup_addSource_mem wu _ _ (ub_ids_nodup dl uid (2 * n) 5 hnodup) hrowU hidU]
  rw [scoreLookup_nil]
  simp only [rowScoreContrib, hscU, hscI, Option.getD_some, Option.getD_none, havq]
  refine congrArg some ?_
  ring

/-- C7 witness: in dlW restaurant 2 appears in all three sources of the
hybrid call with n = 1 (user-based score 4, item-based score 5, popularity
average rating 3), and its combined score under the default weights is
4 * 0.4 + 5 * 0.4 + 3 * 0.2. -/
theorem C7_witness :
    (dlW.restaurants.map Restaurant.restaurant_id).Nodup ∧
    scoreLookup (hybridScores dlW 1 1 0.4 0.4 0.2) 2 =
      some (4 * 0.4 + 5 * 0.4 + 3 * 0.2) := by
  have hnodup : (dlW.restaurants.map Restaurant.restaurant_id).Nodup := by decide
  refine ⟨hnodup, ?_⟩
  refine C7_hybrid_additivity dlW 1 1 0.4 0.4 0.2 4 5 3 2 hnodup (by norm_num) (by norm_num)
    (by norm_num) ?_ ?_ ?_
  · refine ⟨⟨2, some 4, some RW2⟩, ?_, rfl, rfl⟩
    rw [show recommend_collaborative_user_based dlW 1 (2 * 1) 5 =
      [⟨2, some 4, some RW2⟩] from dlW_user_based]
    exact List.mem_cons_self _ _
  · refine ⟨⟨2, some 5, some RW2⟩, ?_, rfl, rfl⟩
    rw [show recommend_collaborative_item_based dlW 1 (2 * 1) 5 =
      [⟨2, some 5, some RW2⟩] from dlW_item_based]
    exact List.mem_cons_self _ _
  · refine ⟨RW2, ?_, rfl, rfl⟩
    rw [show recommend_by_average_rating dlW (2 * 1) none none none 5 =
      [RW1, RW2] from dlW_pop]
    exact List.mem_cons_of_mem _ (List.mem_cons_self _ _)

/-! Evaluation of the item-based pipeline on dlB: a single rated restaurant
    makes both candidate predictions equal, exhibiting the tie behaviour. -/

theorem dlB_rows : (get_user_item_matrix dlB).rows = [1, 2] := rfl

theorem dlB_cols : (get_user_item_matrix dlB).cols = [1, 2, 3] := rfl

theorem dlB_val11 : (get_user_item_matrix dlB).val 1 1 = 4 := by
  show cellRating dlB.history 1 1 = 4
  simp [cellRating, dlB, List.filter]

theorem dlB_val12 : (get_user_item_matrix dlB).val 1 2 = 0 := by
  show cellRating dlB.history 1 2 = 0
  simp [cellRating, dlB, List.filter]

theorem dlB_val13 : (get_user_item_matrix dlB).val 1 3 = 0 := by
  show cellRating dlB.history 1 3 = 0
  simp [cellRating, dlB, List.filter]

theorem dlB_val21 : (get_user_item_matrix dlB).val 2 1 = 1 := by
  show cellRating dlB.history 2 1 = 1
  simp [cellRating, dlB, List.filter]

theorem dlB_val22 : (get_user_item_matrix dlB).val 2 2 = 1 := by
  show cellRating dlB.history 2 2 = 1
  simp [cellRating, dlB, List.filter]

theorem dlB_val23 : (get_user_item_matrix dlB).val 2 3 = 1 := by
  show cellRating dlB.history 2 3 = 1
  simp [cellRating, dlB, List.filter]

theorem dlB_rated : ibRated (get_user_item_matrix dlB) 1 = [(1, 4)] := by
  have h1 : (if 0 < (get_user_item_matrix dlB).val 1 1 then
      some ((1 : Nat), (get_user_item_matrix dlB).val 1 1) else none) = some (1, 4) := by
    rw [dlB_val11, if_pos (by norm_num : (0:ℝ) < 4)]
  have h2 : (if 0 < (get_user_item_matrix dlB).val 1 2 then
      some ((2 : Nat), (get_user_item_matrix dlB).val 1 2) else none) = none := by
    rw [dlB_val12, if_neg (by norm_num : ¬ (0:ℝ) < 0)]
  have h3 : (if 0 < (get_user_item_matrix dlB).val 1 3 then
      some ((3 : Nat), (get_user_item_matrix dlB).val 1 3) else none) = none := by
    rw [dlB_val13, if_neg (by norm_num : ¬ (0:ℝ) < 0)]
  rw [ibRated, dlB_cols]
  rw [List.filterMap_cons, List.filterMap_cons, List.filterMap_cons, List.filterMap_nil]
  rw [h1, h2, h3]

theorem dlB_unrated : ubUnrated (get_user_item_matrix dlB) 1 = [2, 3] := by
  rw [ubUnrated, dlB_cols]
  rw [List.filter_cons_of_neg (by simp [dlB_val11])]
  rw [List.filter_cons_of_pos (by simp [dlB_val12])]
  rw [List.filter_cons_of_pos (by simp [dlB_val13])]
  rfl

theorem dlB_cdot21 : colDot (get_user_item_matrix dlB) 2 1 = 1 := by
  rw [colDot, dlB_rows]
  simp [listDot, dlB_val11, dlB_val12, dlB_val21, dlB_val22]

theorem dlB_cdot22 : colDot (get_user_item_matrix dlB) 2 2 = 1 := by
  rw [colDot, dlB_rows]
  simp [listDot, dlB_val12, dlB_val22]

theorem dlB_cdot11 : colDot (get_user_item_matrix dlB) 1 1 = 17 := by
  rw [colDot, dlB_rows]
  simp [listDot, dlB_val11, dlB_val21]
  norm_num

theorem dlB_cdot31 : colDot (get_user_item_matrix dlB) 3 1 = 1 := by
  rw [colDot, dlB_rows]
  simp [listDot, dlB_val11, dlB_val13, dlB_val21, dlB_val23]

theorem dlB_cdot33 : colDot (get_user_item_matrix dlB) 3 3 = 1 := by
  rw [colDot, dlB_rows]
  simp [listDot, dlB_val13, dlB_val23]

theorem dlB_isim21_pos : 0 < itemSim (get_user_item_matrix dlB) 2 1 := by
  rw [itemSim, dlB_cdot21, dlB_cdot22, dlB_cdot11]
  exact div_pos (by norm_num)
    (mul_pos (Real.sqrt_pos.mpr (by norm_num)) (Real.sqrt_pos.mpr (by norm_num)))

theorem dlB_isim31_pos : 0 < itemSim (get_user_item_matrix dlB) 3 1 := by
  rw [itemSim, dlB_cdot31, dlB_cdot33, dlB_cdot11]
  exact div_pos (by norm_num)
    (mul_pos (Real.sqrt_pos.mpr (by norm_num)) (Real.sqrt_pos.mpr (by norm_num)))

theorem dlB_ibsum2 :
    ibSimSum (get_user_item_matrix dlB) 1 2 = itemSim (get_user_item_matrix dlB) 2 1 := by
  rw [ibSimSum, dlB_rated]
  simp only [List.map_cons, List.map_nil, List.sum_cons, List.sum_nil]
  rw [if_pos dlB_isim21_pos, add_zero]

theorem dlB_ibw2 :
    ibWSum (get_user_item_matrix dlB) 1 2 = itemSim (get_user_item_matrix dlB) 2 1 * 4 := by
  rw [ibWSum, dlB_rated]
  simp only [List.map_cons, List.map_nil, List.sum_cons, List.sum_nil]
  rw [if_pos dlB_isim21_pos, add_zero]

theorem dlB_ibsum3 :
    ibSimSum (get_user_item_matrix dlB) 1 3 = itemSim (get_user_item_matrix dlB) 3 1 := by
  rw [ibSimSum, dlB_rated]
  simp only [List.map_cons, List.map_nil, List.sum_cons, List.sum_nil]
  rw [if_pos dlB_isim31_pos, add_zero]

theorem dlB_ibw3 :
    ibWSum (get_user_item_matrix dlB) 1 3 = itemSim (get_user_item_matrix dlB) 3 1 * 4 := by
  rw [ibWSum, dlB_rated]
  simp only [List.map_cons, List.map_nil, List.sum_cons, List.sum_nil]
  rw [if_pos dlB_isim31_pos, add_zero]

theorem dlB_preds : ibPredictions (get_user_item_matrix dlB) 1 = [(2, 4), (3, 4)] := by
  have h2 : (if 0 < ibSimSum (get_user_item_matrix dlB) 1 2 then
      some ((2 : Nat), ibWSum (get_user_item_matrix dlB) 1 2 /
        ibSimSum (get_user_item_matrix dlB) 1 2) else none) = some (2, 4) := by
    rw [if_pos (by rw [dlB_ibsum2]; exact dlB_isim21_pos)]
    rw [dlB_ibw2, dlB_ibsum2, mul_comm]
    rw [mul_div_cancel_right₀ 4 (ne_of_gt dlB_isim21_pos)]
  have h3 : (if 0 < ibSimSum (get_user_item_matrix dlB) 1 3 then
      some ((3 : Nat), ibWSum (get_user_item_matrix dlB) 1 3 /
        ibSimSum (get_user_item_matrix dlB) 1 3) else none) = some (3, 4) := by
    rw [if_pos (by rw [dlB_ibsum3]; exact dlB_isim31_pos)]
    rw [dlB_ibw3, dlB_ibsum3, mul_comm]
    rw [mul_div_cancel_right₀ 4 (ne_of_gt dlB_isim31_pos)]
  rw [ibPredictions, dlB_unrated]
  rw [List.filterMap_cons, List.filterMap_cons, List.filterMap_nil]
  rw [h2, h3]

theorem dlB_sorted : sortKey (fun p => -p.2) [((2 : Nat), (4 : ℝ)), (3, 4)] =
    [(2, 4), (3, 4)] := by
  rw [sortKey]
  simp only [List.foldl_cons, List.foldl_nil]
  rw [show insKey (fun p => -p.2) ((2 : Nat), (4 : ℝ)) [] = [(2, 4)] from rfl]
  rw [insKey, if_neg (by norm_num)]
  rfl

theorem dlB_item_based : recommend_collaborative_item_based dlB 1 2 5 =
    [⟨2, some 4, some RB2⟩, ⟨3, some 4, some RB3⟩] := by
  simp only [recommend_collaborative_item_based]
  rw [if_pos (show (1 : Nat) ∈ (get_user_item_matrix dlB).rows by rw [dlB_rows]; decide)]
  rw [dlB_rated]
  rw [if_neg (by simp [List.isEmpty_cons])]
  rw [dlB_preds]
  rw [if_neg (by simp [List.isEmpty_cons])]
  rw [dlB_sorted]
  rw [show List.take 2 [((2 : Nat), (4 : ℝ)), (3, 4)] = [(2, 4), (3, 4)] from rfl]
  rw [mergeDetails]
  simp [dlB, RB1, RB2, RB3, List.find?]

/-- C5 is false as stated: in dlB the two item-based recommendations for
user 1 carry the identical predicted score 4, yet they are returned in
candidate-insertion order (restaurant 2 before restaurant 3) although
restaurant 3 has the larger review count (100 versus 1), so the order is
not determined by the documented (review count, identifier) secondary
key. -/
theorem C5_counterexample :
    recommend_collaborative_item_based dlB 1 2 5 =
      [⟨2, some 4, some RB2⟩, ⟨3, some 4, some RB3⟩] ∧
    RB2.num_reviews < RB3.num_reviews :=
  ⟨dlB_item_based, by decide⟩

theorem ubUnrated_pairwise (dl : DataLoader) (uid : Nat) :
    (ubUnrated (get_user_item_matrix dl) uid).Pairwise (· < ·) :=
  List.Pairwise.sublist (List.filter_sublist _) (cols_pairwise dl)

/-- C5 (amended): on the collaborative path the item-based result is weakly
descending by predicted score, and entries with an identical primary score
keep the candidate-iteration order, which is ascending by restaurant
identifier (the matrix column order) -- not the (review count, identifier)
key; the sort applies no secondary key and Python's sorted is stable. -/
theorem C5_tie_order (dl : DataLoader) (uid n k : Nat)
    (h1 : uid ∈ (get_user_item_matrix dl).rows)
    (h2 : (ibRated (get_user_item_matrix dl) uid).isEmpty = false)
    (h3 : (ibPredictions (get_user_item_matrix dl) uid).isEmpty = false) :
    (recommend_collaborative_item_based dl uid n k).Pairwise fun a b =>
      ∀ sa ∈ a.score, ∀ sb ∈ b.score,
        sb < sa ∨ (sa = sb ∧ a.restaurant_id < b.restaurant_id) := by
  have hout : recommend_collaborative_item_based dl uid n k =
      mergeDetails dl
        ((sortKey (fun p => -p.2) (ibPredictions (get_user_item_matrix dl) uid)).take n) := by
    simp only [recommend_collaborative_item_based]
    rw [if_pos h1, h2, h3]
    simp
  rw [hout]
  have hpw : (ibPredictions (get_user_item_matrix dl) uid).Pairwise fun p q => p.1 < q.1 := by
    rw [ibPredictions, filterMap_if_eq, List.pairwise_map]
    refine List.Pairwise.imp ?_
      (List.Pairwise.sublist (List.filter_sublist _) (ubUnrated_pairwise dl uid))
    intro a b hab
    exact hab
  have hsorted := @sortKey_pairwise (Nat × ℝ) ℝ _ (fun p => -p.2) _ _ hpw
  have htake := hsorted.sublist (List.take_sublist n _)
  rw [mergeDetails, List.pairwise_map]
  refine htake.imp ?_
  intro p q hpq
  intro sa hsa sb hsb
  rw [Option.mem_def, Option.some_inj] at hsa hsb
  subst hsa
  subst hsb
  rcases hpq with h | ⟨h, hlt⟩
  · exact Or.inl (by exact neg_lt_neg_iff.mp h)
  · exact Or.inr ⟨neg_inj.mp h, hlt⟩

/-- C5 witness: the tie-order theorem applies concretely to dlB, whose
item-based call for user 1 takes the collaborative path. -/
theorem C5_witness :
    1 ∈ (get_user_item_matrix dlB).rows ∧
    (ibRated (get_user_item_matrix dlB) 1).isEmpty = false ∧
    (ibPredictions (get_user_item_matrix dlB) 1).isEmpty = false ∧
    ((recommend_collaborative_item_based dlB 1 2 5).Pairwise fun a b =>
      ∀ sa ∈ a.score, ∀ sb ∈ b.score,
        sb < sa ∨ (sa = sb ∧ a.restaurant_id < b.restaurant_id)) := by
  have hm : 1 ∈ (get_user_item_matrix dlB).rows := by
    rw [dlB_rows]
    decide
  have hr : (ibRated (get_user_item_matrix dlB) 1).isEmpty = false := by
    rw [dlB_rated]
    rfl
  have hp : (ibPredictions (get_user_item_matrix dlB) 1).isEmpty = false := by
    rw [dlB_preds]
    rfl
  exact ⟨hm, hr, hp, C5_tie_order dlB 1 2 5 hm hr hp⟩

/-! Structure of the combined_scores dict when all three hybrid sources are
    the same popularity list (the all-fallback case). -/

theorem upsert_not_mem (i : Nat) (s : ℝ) :
    ∀ m : List (Nat × ℝ), i ∉ m.map Prod.fst → upsert m i s = m ++ [(i, s)]
  | [], _ => rfl
  | (j, v) :: m, h => by
    have hji : j ≠ i := by
      intro he
      apply h
      rw [show ((j, v) :: m).map Prod.fst = j :: m.map Prod.fst from rfl, he]
      exact List.mem_cons_self _ _
    rw [upsert, if_neg hji,
      upsert_not_mem i s m (fun hm => h (List.mem_cons_of_mem _ hm))]
    rfl

theorem addSource_disjoint (w : ℝ) :
    ∀ (src : List RecRow) (m : List (Nat × ℝ)),
      (∀ i ∈ rowIds src, i ∉ m.map Prod.fst) → (rowIds src).Nodup →
      addSource m src w = m ++ src.map fun q => (q.restaurant_id, rowScoreContrib w q)
  | [], m, _, _ => by simp [addSource]
  | q :: src, m, hdisj, hnodup => by
    have hnd := List.nodup_cons.mp
      (show (q.restaurant_id :: rowIds src).Nodup from hnodup)
    rw [show addSource m (q :: src) w =
      addSource (upsert m q.restaurant_id (rowScoreContrib w q)) src w from rfl]
    rw [upsert_not_mem _ _ m (hdisj _ (List.mem_cons_self _ _))]
    rw [addSource_disjoint w src (m ++ [(q.restaurant_id, rowScoreContrib w q)]) ?_ hnd.2]
    · simp
    · intro i hi
      rw [List.map_append]
      intro hmemi
      rcases List.mem_append.mp hmemi with h | h
      · exact hdisj i (List.mem_cons_of_mem _ hi) h
      · simp only [List.map_cons, List.map_nil, List.mem_singleton] at h
        exact hnd.1 (h ▸ hi)

theorem addSource_cons_skip (w : ℝ) (i : Nat) (v : ℝ) :
    ∀ (src : List RecRow) (m : List (Nat × ℝ)), i ∉ rowIds src →
      addSource ((i, v) :: m) src w = (i, v) :: addSource m src w
  | [], _, _ => rfl
  | q :: src, m, h => by
    have hqi : i ≠ q.restaurant_id := by
      intro he
      apply h
      rw [show rowIds (q :: src) = q.restaurant_id :: rowIds src from rfl, ← he]
      exact List.mem_cons_self _ _
    rw [show addSource ((i, v) :: m) (q :: src) w =
      addSource (upsert ((i, v) :: m) q.restaurant_id (rowScoreContrib w q)) src w from rfl]
    rw [show upsert ((i, v) :: m) q.restaurant_id (rowScoreContrib w q) =
      (i, v) :: upsert m q.restaurant_id (rowScoreContrib w q) from by
        rw [upsert, if_neg hqi]]
    rw [addSource_cons_skip w i v src _ (fun hh => h (List.mem_cons_of_mem _ hh))]
    rfl

theorem addSource_update (w : ℝ) :
    ∀ (src : List RecRow) (f : RecRow → ℝ), (rowIds src).Nodup →
      addSource (src.map fun q => (q.restaurant_id, f q)) src w =
        src.map fun q => (q.restaurant_id, f q + rowScoreContrib w q)
  | [], _, _ => rfl
  | q :: src, f, hnodup => by
    have hnd := List.nodup_cons.mp
      (show (q.restaurant_id :: rowIds src).Nodup from hnodup)
    rw [List.map_cons]
    rw [show addSource ((q.restaurant_id, f q) ::
        src.map fun q' => (q'.restaurant_id, f q')) (q :: src) w =
      addSource (upsert ((q.restaurant_id, f q) ::
        src.map fun q' => (q'.restaurant_id, f q')) q.restaurant_id
          (rowScoreContrib w q)) src w from rfl]
    rw [show upsert ((q.restaurant_id, f q) ::
        src.map fun q' => (q'.restaurant_id, f q')) q.restaurant_id (rowScoreContrib w q) =
      (q.restaurant_id, f q + rowScoreContrib w q) ::
        src.map fun q' => (q'.restaurant_id, f q') from by rw [upsert, if_pos rfl]]
    rw [addSource_cons_skip w _ _ src _ hnd.1]
    rw [addSource_update w src f hnd.2]
    rfl

theorem contrib_popRow (w : ℝ) (r : Restaurant) :
    rowScoreContrib w ⟨r.restaurant_id, none, some r⟩ = r.avg_rating * w := rfl

/-- C8: for a user identifier absent from the rating matrix (in particular
a user with no rating events) and a data set with unique restaurant
identifiers, the user-based predictor, the item-based predictor, and the
hybrid recommender all return exactly the ordered restaurant list of the
Popularity Ranker called with the same n and the default (no) filters: the
two predictors return that DataFrame itself, and the hybrid -- whose three
sources all degrade to the popularity top-2n -- accumulates each
restaurant's avg_rating scaled by the non-negative weight sum, which
preserves the popularity order, and then truncates to the same top-n. -/
theorem C8_cold_start_fallback (dl : DataLoader) (uid n k : Nat) (wu wi wp : ℝ)
    (hmem : uid ∉ (get_user_item_matrix dl).rows)
    (hnodup : (dl.restaurants.map Restaurant.restaurant_id).Nodup)
    (hwu : 0 ≤ wu) (hwi : 0 ≤ wi) (hwp : 0 ≤ wp) :
    rowIds (recommend_collaborative_user_based dl uid n k) =
      (recommend_by_average_rating dl n none none none 5).map Restaurant.restaurant_id ∧
    rowIds (recommend_collaborative_item_based dl uid n k) =
      (recommend_by_average_rating dl n none none none 5).map Restaurant.restaurant_id ∧
    rowIds (recommend_hybrid dl uid n wu wi wp) =
      (recommend_by_average_rating dl n none none none 5).map Restaurant.restaurant_id := by
  have hub : ∀ m, recommend_collaborative_user_based dl uid m k = popRows dl m := by
    intro m
    simp only [recommend_collaborative_user_based]
    rw [if_neg hmem]
  have hib : ∀ m, recommend_collaborative_item_based dl uid m k = popRows dl m := by
    intro m
    simp only [recommend_collaborative_item_based]
    rw [if_neg hmem]
  have hub5 : recommend_collaborative_user_based dl uid (2 * n) 5 = popRows dl (2 * n) := by
    simp only [recommend_collaborative_user_based]
    rw [if_neg hmem]
  have hib5 : recommend_collaborative_item_based dl uid (2 * n) 5 = popRows dl (2 * n) := by
    simp only [recommend_collaborative_item_based]
    rw [if_neg hmem]
  refine ⟨by rw [hub n, rowIds_popRows], by rw [hib n, rowIds_popRows], ?_⟩
  have hPnodup : (rowIds (popRows dl (2 * n))).Nodup := by
    rw [rowIds_popRows]
    exact pop_ids_nodup dl (2 * n) hnodup
  -- the combined_scores dict is the popularity list with scaled values
  have hstep1 : addSource [] (popRows dl (2 * n)) wu =
      (popRows dl (2 * n)).map fun q => (q.restaurant_id, rowScoreContrib wu q) := by
    rw [addSource_disjoint wu _ [] (by simp) hPnodup]
    rw [List.nil_append]
  have hstep2 : addSource ((popRows dl (2 * n)).map fun q =>
        (q.restaurant_id, rowScoreContrib wu q)) (popRows dl (2 * n)) wi =
      (popRows dl (2 * n)).map fun q =>
        (q.restaurant_id, rowScoreContrib wu q + rowScoreContrib wi q) :=
    addSource_update wi _ _ hPnodup
  have hstep3 : addSource ((popRows dl (2 * n)).map fun q =>
        (q.restaurant_id, rowScoreContrib wu q + rowScoreContrib wi q))
          (popRows dl (2 * n)) wp =
      (popRows dl (2 * n)).map fun q => (q.restaurant_id,
        rowScoreContrib wu q + rowScoreContrib wi q + rowScoreContrib wp q) :=
    addSource_update wp _ _ hPnodup
  have hD : hybridScores dl uid n wu wi wp =
      (popRows dl (2 * n)).map fun q => (q.restaurant_id,
        rowScoreContrib wu q + rowScoreContrib wi q + rowScoreContrib wp q) := by
    rw [hybridScores, hub5, hib5, hstep1, hstep2, hstep3]
  -- the popularity list is sorted by popKey, hence by avg_rating
  have hpopsorted : (recommend_by_average_rating dl (2 * n) none none none 5).Pairwise
      fun a b => popKey a ≤ popKey b := by
    simp only [recommend_by_average_rating]
    exact List.Pairwise.sublist (List.take_sublist _ _) (sortKey_sorted popKey _)
  have havg : ∀ a b : Restaurant, popKey a ≤ popKey b → b.avg_rating ≤ a.avg_rating := by
    intro a b h
    rw [popKey, popKey, Prod.Lex.le_iff] at h
    rcases h with h | ⟨h, _⟩
    · exact le_of_lt (neg_lt_neg_iff.mp h)
    · exact le_of_eq (neg_inj.mp h).symm
  have hDsorted : ((popRows dl (2 * n)).map fun q => (q.restaurant_id,
      rowScoreContrib wu q + rowScoreContrib wi q + rowScoreContrib wp q)).Pairwise
      fun a b => (fun p : Nat × ℝ => -p.2) a ≤ (fun p : Nat × ℝ => -p.2) b := by
    rw [List.pairwise_map, popRows, List.pairwise_map]
    simp only [contrib_popRow]
    refine hpopsorted.imp ?_
    intro a b h
    have hab := havg a b h
    have : b.avg_rating * wu + b.avg_rating * wi + b.avg_rating * wp ≤
        a.avg_rating * wu + a.avg_rating * wi + a.avg_rating * wp :=
      add_le_add (add_le_add (mul_le_mul_of_nonneg_right hab hwu)
        (mul_le_mul_of_nonneg_right hab hwi)) (mul_le_mul_of_nonneg_right hab hwp)
    exact neg_le_neg_iff.mpr this
  have hsortid : sortKey (fun p => -p.2)
      ((popRows dl (2 * n)).map fun q => (q.restaurant_id,
        rowScoreContrib wu q + rowScoreContrib wi q + rowScoreContrib wp q)) =
      (popRows dl (2 * n)).map fun q => (q.restaurant_id,
        rowScoreContrib wu q + rowScoreContrib wi q + rowScoreContrib wp q) :=
    sortKey_eq_self hDsorted
  rw [recommend_hybrid, hD, hsortid, rowIds_mergeDetails, List.map_take, List.map_map]
  rw [show (Prod.fst ∘ fun q : RecRow => (q.restaurant_id,
    rowScoreContrib wu q + rowScoreContrib wi q + rowScoreContrib wp q)) =
      RecRow.restaurant_id from rfl]
  rw [show (popRows dl (2 * n)).map RecRow.restaurant_id = rowIds (popRows dl (2 * n)) from rfl]
  rw [rowIds_popRows]
  simp only [recommend_by_average_rating]
  rw [List.map_take, List.map_take, List.take_take]
  rw [Nat.min_eq_left (by omega)]

/-- C8 witness: on dlE (no rating events at all) user 99 is unknown, the
restaurant identifiers are unique, and the three recommenders agree with
the popularity ranking for n = 1 under the default weights. -/
theorem C8_witness :
    99 ∉ (get_user_item_matrix dlE).rows ∧
    (rowIds (recommend_collaborative_user_based dlE 99 1 5) =
      (recommend_by_average_rating dlE 1 none none none 5).map Restaurant.restaurant_id ∧
    rowIds (recommend_collaborative_item_based dlE 99 1 5) =
      (recommend_by_average_rating dlE 1 none none none 5).map Restaurant.restaurant_id ∧
    rowIds (recommend_hybrid dlE 99 1 0.4 0.4 0.2) =
      (recommend_by_average_rating dlE 1 none none none 5).map Restaurant.restaurant_id) := by
  have hmem : 99 ∉ (get_user_item_matrix dlE).rows := by
    rw [show (get_user_item_matrix dlE).rows = [] from rfl]
    decide
  have hnodup : (dlE.restaurants.map Restaurant.restaurant_id).Nodup := by decide
  exact ⟨hmem, C8_cold_start_fallback dlE 99 1 5 0.4 0.4 0.2 hmem hnodup
    (by norm_num) (by norm_num) (by norm_num)⟩

end WhereToEat
